import Mathlib

/-!
Verification development for the ROI-indexing / filename-parsing core of
fractal-tasks-core.

Python strings are shallowly embedded as lists of unicode scalar values
(`List Char`); Python `str.isdigit` is embedded as the ASCII-digit test,
which agrees with Python on ASCII inputs.  Fallible Python code (code that
can raise) is embedded as `Except String`.  Floating point table entries
are embedded as rationals, so the arithmetic identities proved here are the
exact-arithmetic content of the code.
-/

/-- Embedding of a Python `str`: a list of unicode scalar values. -/
abbrev PyStr := List Char

/-- Coerce a Lean string literal to the `PyStr` embedding. -/
def pstr (s : String) : PyStr := s.data

/-- Embedding of Python `str.isdigit` (ASCII fragment): nonempty and all
characters in 0-9. -/
def pyIsDigit (s : PyStr) : Bool := !s.isEmpty && s.all Char.isDigit

/-- Right-to-left helper: does an `Except` hold a value? -/
def isOkE {α : Type} (e : Except String α) : Bool :=
  match e with
  | .ok _ => true
  | .error _ => false

/-- Does an `Except` hold an error? -/
def isErrE {α : Type} (e : Except String α) : Bool :=
  match e with
  | .ok _ => false
  | .error _ => true

instance {ε α : Type} [DecidableEq ε] [DecidableEq α] : DecidableEq (Except ε α) := fun a b =>
  match a, b with
  | .ok x, .ok y =>
    if h : x = y then isTrue (by rw [h]) else isFalse (fun c => by cases c; exact h rfl)
  | .error e, .error f =>
    if h : e = f then isTrue (by rw [h]) else isFalse (fun c => by cases c; exact h rfl)
  | .ok _, .error _ => isFalse (fun c => by cases c)
  | .error _, .ok _ => isFalse (fun c => by cases c)

/-! # Well/Row-Column codec

Embedding of fractal_tasks_core/cellvoyager/wells.py.
-/

/-- Error raised for unsupported well shapes.  The source builds the message
with an f-string that also prints the offending row/col values; the message
text is abbreviated here, the error condition is embedded exactly. -/
def unsupportedWellShapeMsg : String :=
  "NotImplementedError: This converter only handles wells like B03 or B03.a1"

/-- Error corresponding to a Python IndexError from indexing past the end of
a string (reachable in the decoder for length-6 inputs whose dot sits at an
extreme position). -/
def indexErrorMsg : String := "IndexError: string index out of range"

/-- Embedding of wells.get_filename_well_id: generate the filename well id
from row & col.  Source:
if len(row) == 1 and len(col) == 2: return row + col
elif len(row) == 2 and len(col) == 3: return f-string row[0] col[:2] . row[1] col[2]
else: raise NotImplementedError. -/
def get_filename_well_id (row col : PyStr) : Except String PyStr :=
  if row.length = 1 ∧ col.length = 2 then
    .ok (row ++ col)
  else if row.length = 2 ∧ col.length = 3 then
    .ok (row.take 1 ++ col.take 2 ++ ['.'] ++ row.drop 1 ++ col.drop 2)
  else
    .error unsupportedWellShapeMsg

/-- Embedding of wells._extract_row_col_from_well_id: split a well name into
row & column.  Source:
if len(well_id) == 3 and well_id.count(".") == 0: return (well_id[0], well_id[1:3])
elif len(well_id) == 6 and well_id.count(".") == 1:
    core, suffix = well_id.split("."); row = core[0]+suffix[0]; col = core[1:]+suffix[1]
else: raise NotImplementedError.
With exactly one dot, split yields the part before the dot and the part
after it; the single-character indexing operations raise IndexError when the
parts are too short. -/
def _extract_row_col_from_well_id (well_id : PyStr) : Except String (PyStr × PyStr) :=
  if well_id.length = 3 ∧ well_id.count '.' = 0 then
    .ok (well_id.take 1, well_id.drop 1)
  else if well_id.length = 6 ∧ well_id.count '.' = 1 then
    let core := well_id.takeWhile (fun c => c ≠ '.')
    let suffix := (well_id.dropWhile (fun c => c ≠ '.')).drop 1
    if 1 ≤ core.length ∧ 2 ≤ suffix.length then
      .ok (core.take 1 ++ suffix.take 1, core.drop 1 ++ (suffix.drop 1).take 1)
    else
      .error indexErrorMsg
  else
    .error unsupportedWellShapeMsg

/-- Python string comparison, lexicographic on unicode scalar values:
the less-or-equal test. -/
def pyStrLeB : PyStr → PyStr → Bool
  | [], _ => true
  | _ :: _, [] => false
  | a :: as, b :: bs => if a < b then true else if b < a then false else pyStrLeB as bs

/-- Python tuple-of-two-strings comparison (less-or-equal), as used by
sorted() on (row, col) pairs. -/
def pairLeB (p q : PyStr × PyStr) : Bool :=
  if p.1 = q.1 then pyStrLeB p.2 q.2 else pyStrLeB p.1 q.1

/-- The ordering relation on (row, col) pairs as a Prop. -/
def pairLeP (p q : PyStr × PyStr) : Prop := pairLeB p q = true

instance : DecidableRel pairLeP := fun p q => by
  unfold pairLeP; infer_instance

/-- Embedding of wells.generate_row_col_split: decode every well id, then
sort the resulting (row, col) pairs ascending.  Python sorted() is a stable
ascending sort; since the pair order is antisymmetric the sorted output is
unique, and it is embedded by insertion sort. -/
def generate_row_col_split (wells : List PyStr) : Except String (List (PyStr × PyStr)) :=
  match wells.mapM _extract_row_col_from_well_id with
  | .error e => .error e
  | .ok l => .ok (l.insertionSort pairLeP)

/-! # Identifier parser

Embedding of fractal_tasks_core/lib_parse_filename_metadata.py.
-/

/-- Embedding of re.split applied with the pattern capturing maximal runs of
the characters 0-9: the string decomposes as n0 d1 n1 d2 ... dk nk where the
di are the maximal digit runs and the ni are the (possibly empty) digit-free
stretches between them; the result is the alternating list
[n0, d1, n1, ..., dk, nk], which always has odd length and starts and ends
with a (possibly empty) digit-free piece. -/
def reSplitDigits (s : PyStr) : List PyStr :=
  let step := fun (acc : List PyStr × PyStr × Bool) (c : Char) =>
    if c.isDigit = acc.2.2 then (acc.1, acc.2.1 ++ [c], acc.2.2)
    else (acc.1 ++ [acc.2.1], [c], c.isDigit)
  let fin := s.foldl step ([], [], false)
  if fin.2.2 then fin.1 ++ [fin.2.1] ++ [[]] else fin.1 ++ [fin.2.1]

/-- Group a flat alternating [key, value, key, value, ...] list into pairs;
a trailing odd element is dropped (never happens on the 12-element lists the
parser builds). -/
def pairUp : List PyStr → List (PyStr × PyStr)
  | k :: v :: rest => (k, v) :: pairUp rest
  | _ => []

/-- Embedding of the TFLAZC-token stage of parse_filename (source lines
95-108): split the token on digit runs, require the last piece to be empty
and exactly 13 pieces, then read off the six (key, value) pairs, rejecting
any all-digit key or non-digit value. -/
def parse_TFLAZC (TFLAZC : PyStr) : Except String (List (PyStr × PyStr)) :=
  let metadata := reSplitDigits TFLAZC
  if metadata.getLastD [] ≠ [] ∨ metadata.length ≠ 13 then
    .error "ValueError: Something wrong with filename TFLAZC"
  else
    let pairs := pairUp metadata.dropLast
    if pairs.any (fun kv => pyIsDigit kv.1 || !pyIsDigit kv.2) then
      .error "ValueError: Something wrong with filename for key value"
    else
      .ok pairs

/-- Embedding of get_plate_name (source lines 22-68): two FMI-specific
shapes of the plate prefix are recognised, all other prefixes are returned
unchanged. -/
def get_plate_name (platePfx : PyStr) : PyStr :=
  let fields := List.splitOn '_' platePfx
  if fields.length = 3 ∧ (fields.getD 1 []).length = 6 ∧ (fields.getD 2 []).length = 6 ∧
      pyIsDigit (fields.getD 1 []) ∧ pyIsDigit (fields.getD 2 []) then
    fields.getD 0 []
  else if fields.length = 4 ∧
      (fields.getD 0 []).length = 6 ∧ (fields.getD 1 []).length = 6 ∧
      (fields.getD 2 []).length = 6 ∧ (fields.getD 3 []).length = 6 ∧
      pyIsDigit (fields.getD 0 []) ∧ pyIsDigit (fields.getD 1 []) ∧
      pyIsDigit (fields.getD 2 []) ∧ pyIsDigit (fields.getD 3 []) then
    pstr "RS" ++ fields.getD 0 [] ++ fields.getD 1 []
  else
    platePfx

/-- Embedding of Path(filename).with_suffix("").name for plain POSIX paths:
drop trailing slashes, keep the part after the last slash, and remove the
pathlib suffix (the part from the last dot when that dot is neither the
first nor the last character of the name).  pathlib raises ValueError when
the path has an empty name (empty paths, the root, and the special names
dot and dot-dot), embedded as `none`. -/
def pyStem (filename : PyStr) : Option PyStr :=
  let trimmed := (filename.reverse.dropWhile (fun c => c = '/')).reverse
  let name := (trimmed.reverse.takeWhile (fun c => c ≠ '/')).reverse
  if name = [] ∨ name = ['.'] ∨ name = ['.', '.'] then none
  else
    let afterDot := name.reverse.takeWhile (fun c => c ≠ '.')
    if afterDot.length = name.length then some name
    else
      let i := name.length - 1 - afterDot.length
      if 0 < i ∧ i < name.length - 1 then some (name.take i) else some name

/-- Python dict insertion output[k] = v on an insertion-ordered association
list: update the existing entry in place, else append. -/
def dictUpsert (d : List (PyStr × PyStr)) (k v : PyStr) : List (PyStr × PyStr) :=
  if d.any (fun p => p.1 = k) then
    d.map (fun p => if p.1 = k then (p.1, v) else p)
  else
    d ++ [(k, v)]

/-- Lookup in the association-list embedding of a Python dict. -/
def dictLookup (d : List (PyStr × PyStr)) (k : PyStr) : Option PyStr :=
  (d.find? (fun p => p.1 = k)).map (fun p => p.2)

/-- Embedding of parse_filename (source lines 71-109): strip extension and
directory, split on underscores, require at least 3 fields, record the
plate prefix (all fields but the last two, joined by underscores), the
derived plate name and the well (second-to-last field), then parse the
final TFLAZC token and insert its six (key, value) pairs into the output
dict in order. -/
def parse_filename (filename : PyStr) : Except String (List (PyStr × PyStr)) :=
  match pyStem filename with
  | none => .error "ValueError: path has an empty name"
  | some fname =>
    let filename_fields := List.splitOn '_' fname
    if filename_fields.length < 3 then
      .error "ValueError: filename not valid"
    else
      let platePfx := List.intercalate ['_'] (filename_fields.dropLast.dropLast)
      let output := [(pstr "plate_prefix", platePfx),
                     (pstr "plate", get_plate_name platePfx),
                     (pstr "well", filename_fields.getD (filename_fields.length - 2) [])]
      match parse_TFLAZC (filename_fields.getLastD []) with
      | .error e => .error e
      | .ok pairs => .ok (pairs.foldl (fun d kv => dictUpsert d kv.1 kv.2) output)

/-! # Cross-cycle registration reconciler

Embedding of fractal_tasks_core/tasks/apply_registration_to_ROI_tables.py.
An AnnData ROI table is embedded as an association list from ROI name to a
record of its numeric columns; the per-cycle translation sub-dataframe keeps
the same row order, mirroring to_df().loc on the translation columns.
-/

/-- One ROI translation row: the translation_z/y/x values. -/
structure Translation where
  z : ℚ
  y : ℚ
  x : ℚ
  deriving DecidableEq, Inhabited

/-- One ROI record: positions, extents, and the translation columns.  The
tables handled by the reconciler all carry translation columns, so they are
structural fields here. -/
structure ROIRecord where
  z_micrometer : ℚ
  y_micrometer : ℚ
  x_micrometer : ℚ
  len_z_micrometer : ℚ
  len_y_micrometer : ℚ
  len_x_micrometer : ℚ
  translation_z : ℚ
  translation_y : ℚ
  translation_x : ℚ
  deriving DecidableEq, Inhabited

/-- A ROI table: ROI name to record, in row order. -/
abbrev ROITable := List (String × ROIRecord)

/-- A translation dataframe: ROI name to translation row, in row order. -/
abbrev TransDF := List (String × Translation)

/-- roi_table.to_df().loc[:, translation_columns]: the per-cycle translation
sub-dataframe. -/
def to_translation_df (t : ROITable) : TransDF :=
  t.map (fun p => (p.1, ⟨p.2.translation_z, p.2.translation_y, p.2.translation_x⟩))

/-- Componentwise maximum of two translation rows (np.maximum). -/
def tmax (a b : Translation) : Translation := ⟨max a.z b.z, max a.y b.y, max a.x b.x⟩

/-- Componentwise minimum of two translation rows (np.minimum). -/
def tmin (a b : Translation) : Translation := ⟨min a.z b.z, min a.y b.y, min a.x b.x⟩

/-- np.maximum / np.minimum of two dataframes: positional on the values,
keeping the index of the accumulator, exactly as the source rebuilds
pd.DataFrame(np.maximum(max_df.values, table.values), index=max_df.index). -/
def elementwiseDF (f : Translation → Translation → Translation) (a b : TransDF) : TransDF :=
  List.zipWith (fun p q => (p.1, f p.2 q.2)) a b

/-- Embedding of calculate_min_max_across_dfs (source lines 232-261).  The
source initialises max_df/min_df as all-NaN object dataframes carrying the
first table's index; the first np.maximum / np.minimum step against that
NaN frame returns the first table's values (the object-dtype loop picks the
second operand since NaN compares false), so the loop over tables_list
computes the elementwise max/min fold started from the first table.  The
source indexes tables_list[0], so it fails on an empty list; that case is
embedded by the junk value of empty dataframes and is outside every claim. -/
def calculate_min_max_across_dfs (tables_list : List TransDF) : TransDF × TransDF :=
  match tables_list with
  | [] => ([], [])
  | t0 :: rest => (rest.foldl (elementwiseDF tmax) t0, rest.foldl (elementwiseDF tmin) t0)

/-- max_df.loc[roi, ...]: label lookup in a translation dataframe.  The
default is never reached when the label is present. -/
def dfLookup (df : TransDF) (roi : String) : Translation :=
  ((df.find? (fun p => p.1 = roi)).map (fun p => p.2)).getD ⟨0, 0, 0⟩

/-- One loop body of apply_registration_to_single_ROI_table: the row with
label roi gets
position := position + max_shift - own translation (per axis) and
extent := extent - max_shift + min_shift (per axis). -/
def registerRecord (r : ROIRecord) (mx mn : Translation) : ROIRecord :=
  { r with
    z_micrometer := r.z_micrometer + mx.z - r.translation_z
    y_micrometer := r.y_micrometer + mx.y - r.translation_y
    x_micrometer := r.x_micrometer + mx.x - r.translation_x
    len_z_micrometer := r.len_z_micrometer - mx.z + mn.z
    len_y_micrometer := r.len_y_micrometer - mx.y + mn.y
    len_x_micrometer := r.len_x_micrometer - mx.x + mn.x }

/-- Label-indexed update of the rows named roi, one iteration of the loop in
apply_registration_to_single_ROI_table. -/
def updateROI (max_df min_df : TransDF) (t : ROITable) (roi : String) : ROITable :=
  t.map (fun p =>
    if p.1 = roi then (p.1, registerRecord p.2 (dfLookup max_df roi) (dfLookup min_df roi))
    else p)

/-- Embedding of apply_registration_to_single_ROI_table (source lines
264-303): loop over the given ROI names, shifting each named row by the
consensus max/min translations. -/
def apply_registration_to_single_ROI_table
    (roi_table : ROITable) (max_df min_df : TransDF) (rois : List String) : ROITable :=
  rois.foldl (updateROI max_df min_df) roi_table

/-- Embedding of the pandas comparison (acq_roi_table.obs.index == rois):
elementwise equality of two equal-length indexes; pandas raises on a length
mismatch, embedded as none. -/
def indexEqualsAll (a b : List String) : Option Bool :=
  if a.length = b.length then some ((a.zip b).all (fun p => p.1 = p.2)) else none

/-- The per-acquisition ROI-name check of apply_registration_to_ROI_tables
(source lines 136-143): raise, naming the acquisition, unless the
acquisition's obs index is elementwise equal to the reference index.  The
source message also prints the two indexes; the embedded message keeps the
acquisition id. -/
def check_acquisition_rois (rois : List String) (acq : Nat) (acq_names : List String) :
    Except String Unit :=
  match indexEqualsAll acq_names rois with
  | none => .error "ValueError: Lengths must match to compare"
  | some b =>
    if b then .ok ()
    else .error ("ValueError: Acquisition " ++ toString acq ++
      " does not contain the same ROIs as the reference acquisition")

/-- The loop of the check over all acquisitions (source lines 134-143),
stopping at the first failure as the raise does. -/
def check_same_rois (rois : List String) : List (Nat × List String) → Except String Unit
  | [] => .ok ()
  | a :: rest =>
    match check_acquisition_rois rois a.1 a.2 with
    | .error e => .error e
    | .ok _ => check_same_rois rois rest

/-- The translation column names, in source order. -/
def translation_columns : List String := ["translation_z", "translation_y", "translation_x"]

/-- An AnnData table for the column-handling claims: observation names, the
var (column) names, and the row-major value matrix. -/
structure AnnTable where
  obs_names : List String
  var_names : List String
  X : List (List ℚ)
  deriving DecidableEq, Inhabited

/-- Embedding of add_zero_translation_columns (source lines 216-229): raise
ValueError if the table's var index meets any translation column, else
concatenate three zero-filled translation columns. -/
def add_zero_translation_columns (ad_table : AnnTable) : Except String AnnTable :=
  if ad_table.var_names.any (fun v => translation_columns.contains v) then
    .error ("ValueError: The roi table already contains translation columns. " ++
      "Did you enter a wrong reference cycle?")
  else
    .ok { ad_table with
          var_names := ad_table.var_names ++ translation_columns,
          X := ad_table.X.map (fun row => row ++ [0, 0, 0]) }

/-- The table-collection step of apply_registration_to_ROI_tables for one
acquisition (source lines 103-123): the reference cycle's table first gets
zero translation columns added, then every table must contain exactly 3
translation columns. -/
def collect_cycle_roi_table (reference_cycle acq : Nat) (t : AnnTable) :
    Except String AnnTable :=
  match (if acq = reference_cycle then add_zero_translation_columns t else .ok t) with
  | .error e => .error e
  | .ok t2 =>
    if (t2.var_names.filter (fun v => translation_columns.contains v)).length ≠ 3 then
      .error ("ValueError: Cycle " ++ toString acq ++
        " roi table does not contain the translation columns necessary to use this task")
    else .ok t2

/-! # FOV image-size consistency check

Embedding of the check in fractal_tasks_core/illumination_correction.py
(source lines 173-183).
-/

/-- A level-0 pixel-index window (s_z, e_z, s_y, e_y, s_x, e_x). -/
structure Window where
  s_z : Int
  e_z : Int
  s_y : Int
  e_y : Int
  s_x : Int
  e_x : Int
  deriving DecidableEq, Inhabited

/-- The image size the source reads off a window: the (y, x) pixel extents
(indices[3] - indices[2], indices[5] - indices[4]). -/
def windowImgSize (w : Window) : Int × Int := (w.e_y - w.s_y, w.e_x - w.s_x)

/-- Embedding of the consistency loop of illumination_correction: take the
first window's (y, x) size as reference and raise on the first window whose
(y, x) size differs; on success the source goes on using the common size.
On an empty list the source hits an unbound img_size (a NameError),
embedded as an error. -/
def check_FOV_image_sizes (list_indices : List Window) : Except String (Int × Int) :=
  match list_indices with
  | [] => .error "NameError: img_size is not defined"
  | w :: ws =>
    if ws.all (fun v => windowImgSize v = windowImgSize w) then
      .ok (windowImgSize w)
    else
      .error "ERROR: inconsistent image sizes in list_indices"

/-- Modelled from the spec: convert_ROI_table_to_indices is not part of the
source tree (only its caller illumination_correction.py is), so the
micrometer-to-pixel conversion follows spec section 4.4: per axis the
effective pixel size is the level-0 size, with y and x multiplied by
coarsening_xy ** level; start = round(position / size), end =
round((position + extent) / size), with round-half-up as the consistent
rounding policy. -/
def convert_ROI_table_to_indices (table : ROITable) (level : ℕ) (coarsening_xy : ℕ)
    (pxl_z pxl_y pxl_x : ℚ) : List Window :=
  table.map (fun p =>
    let eff_y := pxl_y * (coarsening_xy : ℚ) ^ level
    let eff_x := pxl_x * (coarsening_xy : ℚ) ^ level
    { s_z := round (p.2.z_micrometer / pxl_z)
      e_z := round ((p.2.z_micrometer + p.2.len_z_micrometer) / pxl_z)
      s_y := round (p.2.y_micrometer / eff_y)
      e_y := round ((p.2.y_micrometer + p.2.len_y_micrometer) / eff_y)
      s_x := round (p.2.x_micrometer / eff_x)
      e_x := round ((p.2.x_micrometer + p.2.len_x_micrometer) / eff_x) })

/-! # Theorems -/

/-- getD through a map, below the length. -/
lemma getD_map_of_lt {α β : Type} (dflt : α) (dfltb : β) (f : α → β) :
    ∀ (l : List α) (i : Nat), i < l.length → (l.map f).getD i dfltb = f (l.getD i dflt) := by
  intro l
  induction l with
  | nil => intro i h; exact absurd h (Nat.not_lt_zero i)
  | cons a as ih =>
    intro i h
    cases i with
    | zero => rfl
    | succ j => exact ih j (Nat.lt_of_succ_lt_succ h)

/-- The registration loop preserves the number of rows. -/
lemma apply_registration_length (max_df min_df : TransDF) :
    ∀ (rois : List String) (t : ROITable),
      (apply_registration_to_single_ROI_table t max_df min_df rois).length = t.length := by
  intro rois
  induction rois with
  | nil => intro t; rfl
  | cons r rest ih =>
    intro t
    unfold apply_registration_to_single_ROI_table at ih ⊢
    rw [List.foldl_cons, ih]
    exact List.length_map t _

/-- The registration loop acts row by row. -/
lemma apply_registration_getD (max_df min_df : TransDF) :
    ∀ (rois : List String) (t : ROITable) (i : Nat), i < t.length →
      (apply_registration_to_single_ROI_table t max_df min_df rois).getD i default =
        rois.foldl (fun p roi =>
          if p.1 = roi then
            (p.1, registerRecord p.2 (dfLookup max_df roi) (dfLookup min_df roi))
          else p) (t.getD i default) := by
  intro rois
  induction rois with
  | nil => intro t i _; rfl
  | cons r rest ih =>
    intro t i hi
    unfold apply_registration_to_single_ROI_table at ih ⊢
    rw [List.foldl_cons, List.foldl_cons]
    rw [ih (updateROI max_df min_df t r) i (by unfold updateROI; rw [List.length_map]; exact hi)]
    unfold updateROI
    rw [getD_map_of_lt default default _ t i hi]

/-- A row whose name is outside the loop list is left unchanged. -/
lemma register_foldl_not_mem (max_df min_df : TransDF) (p : String × ROIRecord) :
    ∀ rois : List String, p.1 ∉ rois →
      rois.foldl (fun p roi =>
        if p.1 = roi then
          (p.1, registerRecord p.2 (dfLookup max_df roi) (dfLookup min_df roi))
        else p) p = p := by
  intro rois
  induction rois generalizing p with
  | nil => intro _; rfl
  | cons r rest ih =>
    intro hmem
    rw [List.foldl_cons,
        if_neg (fun hc => hmem (by rw [hc]; exact List.mem_cons_self r rest))]
    exact ih p (fun hc => hmem (List.mem_cons_of_mem r hc))

/-- With distinct loop names, a row whose name occurs in the list is
registered exactly once. -/
lemma register_foldl_mem (max_df min_df : TransDF) (p : String × ROIRecord) :
    ∀ rois : List String, rois.Nodup → p.1 ∈ rois →
      rois.foldl (fun p roi =>
        if p.1 = roi then
          (p.1, registerRecord p.2 (dfLookup max_df roi) (dfLookup min_df roi))
        else p) p =
        (p.1, registerRecord p.2 (dfLookup max_df p.1) (dfLookup min_df p.1)) := by
  intro rois
  induction rois generalizing p with
  | nil => intro _ hmem; cases hmem
  | cons r rest ih =>
    intro hnd hmem
    rw [List.nodup_cons] at hnd
    by_cases hp : p.1 = r
    · rw [List.foldl_cons, if_pos hp]
      rw [register_foldl_not_mem max_df min_df _ rest (by rw [hp]; exact hnd.1)]
      rw [hp]
    · rw [List.foldl_cons, if_neg hp]
      rcases List.mem_cons.mp hmem with hc | hc
      · exact absurd hc hp
      · exact ih p hnd.2 hc

/-- getD through elementwiseDF (np.maximum / np.minimum of two frames):
positional combination, keeping the accumulator's label. -/
lemma elementwiseDF_getD (f : Translation → Translation → Translation) :
    ∀ (a b : TransDF) (i : Nat), i < a.length → i < b.length →
      (elementwiseDF f a b).getD i default =
        ((a.getD i default).1, f (a.getD i default).2 (b.getD i default).2) := by
  intro a
  induction a with
  | nil => intro b i h _; exact absurd h (Nat.not_lt_zero i)
  | cons p ps ih =>
    intro b i hi hb
    cases b with
    | nil => exact absurd hb (Nat.not_lt_zero i)
    | cons q qs =>
      cases i with
      | zero => rfl
      | succ j =>
        exact ih qs j (Nat.lt_of_succ_lt_succ hi) (Nat.lt_of_succ_lt_succ hb)

/-- elementwiseDF keeps the accumulator's length when the other frame is at
least as long. -/
lemma elementwiseDF_length (f : Translation → Translation → Translation)
    (a b : TransDF) (h : a.length ≤ b.length) :
    (elementwiseDF f a b).length = a.length := by
  unfold elementwiseDF
  rw [List.length_zipWith]
  omega

/-- elementwiseDF keeps the accumulator's labels when the other frame is at
least as long. -/
lemma elementwiseDF_names (f : Translation → Translation → Translation) :
    ∀ (a b : TransDF), a.length ≤ b.length →
      (elementwiseDF f a b).map Prod.fst = a.map Prod.fst := by
  intro a
  induction a with
  | nil => intro b _; rfl
  | cons p ps ih =>
    intro b h
    cases b with
    | nil => simp at h
    | cons q qs =>
      unfold elementwiseDF at ih ⊢
      rw [List.zipWith_cons_cons, List.map_cons, List.map_cons, ih qs (by simpa using h)]

/-- The min/max fold over frames of one length: labels come from the first
frame and each entry is the positional fold. -/
lemma minmax_foldl_spec (f : Translation → Translation → Translation) (n : Nat) :
    ∀ (rest : List TransDF) (t0 : TransDF), t0.length = n → (∀ u ∈ rest, u.length = n) →
      (rest.foldl (elementwiseDF f) t0).length = n ∧
      (rest.foldl (elementwiseDF f) t0).map Prod.fst = t0.map Prod.fst ∧
      ∀ i, i < n → (rest.foldl (elementwiseDF f) t0).getD i default =
        ((t0.getD i default).1,
          rest.foldl (fun acc u => f acc ((u.getD i default).2)) ((t0.getD i default).2)) := by
  intro rest
  induction rest with
  | nil =>
    intro t0 h0 _
    exact ⟨h0, rfl, fun i _ => by simp⟩
  | cons u us ih =>
    intro t0 h0 hall
    have hu : u.length = n := hall u (List.mem_cons_self u us)
    have hle : t0.length ≤ u.length := by omega
    have h1 : (elementwiseDF f t0 u).length = n := by
      rw [elementwiseDF_length f t0 u hle]; exact h0
    obtain ⟨hlen, hnames, hget⟩ := ih (elementwiseDF f t0 u) h1
      (fun v hv => hall v (List.mem_cons_of_mem u hv))
    refine ⟨by rw [List.foldl_cons]; exact hlen, ?_, ?_⟩
    · rw [List.foldl_cons, hnames]
      exact elementwiseDF_names f t0 u hle
    · intro i hi
      rw [List.foldl_cons, hget i hi,
        elementwiseDF_getD f t0 u i (by omega) (by omega), List.foldl_cons]

/-- A left max-fold over rationals is the maximum of the start and the
list. -/
lemma foldl_max_spec :
    ∀ (l : List ℚ) (a : ℚ),
      (l.foldl max a ∈ a :: l) ∧ ∀ x ∈ a :: l, x ≤ l.foldl max a := by
  intro l
  induction l with
  | nil => intro a; exact ⟨List.mem_cons_self a [], by simp⟩
  | cons b bs ih =>
    intro a
    rw [List.foldl_cons]
    obtain ⟨hmem, hub⟩ := ih (max a b)
    constructor
    · rcases List.mem_cons.mp hmem with h | h
      · rcases max_choice a b with hc | hc
        · rw [h, hc]; exact List.mem_cons_self a (b :: bs)
        · rw [h, hc]; exact List.mem_cons_of_mem a (List.mem_cons_self b bs)
      · exact List.mem_cons_of_mem a (List.mem_cons_of_mem b h)
    · intro x hx
      rcases List.mem_cons.mp hx with h | h
      · rw [h]
        exact le_trans (le_max_left a b) (hub _ (List.mem_cons_self _ bs))
      · rcases List.mem_cons.mp h with h2 | h2
        · rw [h2]
          exact le_trans (le_max_right a b) (hub _ (List.mem_cons_self _ bs))
        · exact hub x (List.mem_cons_of_mem _ h2)

/-- A left min-fold over rationals is the minimum of the start and the
list. -/
lemma foldl_min_spec :
    ∀ (l : List ℚ) (a : ℚ),
      (l.foldl min a ∈ a :: l) ∧ ∀ x ∈ a :: l, l.foldl min a ≤ x := by
  intro l
  induction l with
  | nil => intro a; exact ⟨List.mem_cons_self a [], by simp⟩
  | cons b bs ih =>
    intro a
    rw [List.foldl_cons]
    obtain ⟨hmem, hlb⟩ := ih (min a b)
    constructor
    · rcases List.mem_cons.mp hmem with h | h
      · rcases min_choice a b with hc | hc
        · rw [h, hc]; exact List.mem_cons_self a (b :: bs)
        · rw [h, hc]; exact List.mem_cons_of_mem a (List.mem_cons_self b bs)
      · exact List.mem_cons_of_mem a (List.mem_cons_of_mem b h)
    · intro x hx
      rcases List.mem_cons.mp hx with h | h
      · rw [h]
        exact le_trans (hlb _ (List.mem_cons_self _ bs)) (min_le_left a b)
      · rcases List.mem_cons.mp h with h2 | h2
        · rw [h2]
          exact le_trans (hlb _ (List.mem_cons_self _ bs)) (min_le_right a b)
        · exact hlb x (List.mem_cons_of_mem _ h2)

/-- Componentwise z of a tmax fold. -/
lemma tmax_foldl_z (l : List Translation) :
    ∀ a : Translation, (l.foldl tmax a).z = (l.map Translation.z).foldl max a.z := by
  induction l with
  | nil => intro a; rfl
  | cons b bs ih => intro a; rw [List.foldl_cons, List.map_cons, List.foldl_cons, ih]; rfl

/-- Componentwise y of a tmax fold. -/
lemma tmax_foldl_y (l : List Translation) :
    ∀ a : Translation, (l.foldl tmax a).y = (l.map Translation.y).foldl max a.y := by
  induction l with
  | nil => intro a; rfl
  | cons b bs ih => intro a; rw [List.foldl_cons, List.map_cons, List.foldl_cons, ih]; rfl

/-- Componentwise x of a tmax fold. -/
lemma tmax_foldl_x (l : List Translation) :
    ∀ a : Translation, (l.foldl tmax a).x = (l.map Translation.x).foldl max a.x := by
  induction l with
  | nil => intro a; rfl
  | cons b bs ih => intro a; rw [List.foldl_cons, List.map_cons, List.foldl_cons, ih]; rfl

/-- Componentwise z of a tmin fold. -/
lemma tmin_foldl_z (l : List Translation) :
    ∀ a : Translation, (l.foldl tmin a).z = (l.map Translation.z).foldl min a.z := by
  induction l with
  | nil => intro a; rfl
  | cons b bs ih => intro a; rw [List.foldl_cons, List.map_cons, List.foldl_cons, ih]; rfl

/-- Componentwise y of a tmin fold. -/
lemma tmin_foldl_y (l : List Translation) :
    ∀ a : Translation, (l.foldl tmin a).y = (l.map Translation.y).foldl min a.y := by
  induction l with
  | nil => intro a; rfl
  | cons b bs ih => intro a; rw [List.foldl_cons, List.map_cons, List.foldl_cons, ih]; rfl

/-- Componentwise x of a tmin fold. -/
lemma tmin_foldl_x (l : List Translation) :
    ∀ a : Translation, (l.foldl tmin a).x = (l.map Translation.x).foldl min a.x := by
  induction l with
  | nil => intro a; rfl
  | cons b bs ih => intro a; rw [List.foldl_cons, List.map_cons, List.foldl_cons, ih]; rfl

/-- Label lookup in a frame with distinct labels is positional. -/
lemma dfLookup_of_names :
    ∀ (df : TransDF) (rois : List String), df.map Prod.fst = rois → rois.Nodup →
      ∀ i, i < rois.length → dfLookup df (rois.getD i "") = (df.getD i default).2 := by
  intro df
  induction df with
  | nil =>
    intro rois hnames _ i hi
    rw [← hnames] at hi
    exact absurd hi (Nat.not_lt_zero i)
  | cons p ps ih =>
    intro rois hnames hnd i hi
    subst hnames
    rw [List.map_cons, List.nodup_cons] at hnd
    rw [List.map_cons]
    cases i with
    | zero =>
      unfold dfLookup
      rw [List.find?_cons_of_pos _ (by simp)]
      rfl
    | succ j =>
      have hj : j < (ps.map Prod.fst).length := by
        simpa using Nat.lt_of_succ_lt_succ hi
      have hname : ((p.1 :: ps.map Prod.fst).getD (j + 1) "") = (ps.map Prod.fst).getD j "" := rfl
      have hmem : (ps.map Prod.fst).getD j "" ∈ ps.map Prod.fst := by
        rw [List.getD_eq_getElem _ _ hj]
        exact List.getElem_mem hj
      unfold dfLookup at ih ⊢
      rw [hname, List.find?_cons_of_neg _ (by
        simp only [decide_eq_true_eq]
        intro hc
        exact hnd.1 (hc ▸ hmem))]
      exact ih (ps.map Prod.fst) rfl hnd.2 j hj

/-- One column of the min/max frames computed by
calculate_min_max_across_dfs: a scalar fold of the per-cycle translations of
the ROI at position i. -/
lemma minmax_column (f : Translation → Translation → Translation) (op : ℚ → ℚ → ℚ)
    (sel : Translation → ℚ) (selR : ROIRecord → ℚ)
    (hsel : ∀ r : ROIRecord,
      sel ⟨r.translation_z, r.translation_y, r.translation_x⟩ = selR r)
    (hfold : ∀ (l : List Translation) (a : Translation),
      sel (l.foldl f a) = (l.map sel).foldl op (sel a))
    (t0 : ROITable) (rest : List ROITable) (rois : List String)
    (hnames : ∀ u ∈ t0 :: rest, u.map Prod.fst = rois)
    (i : Nat) (hi : i < rois.length) :
    sel ((((rest.map to_translation_df).foldl (elementwiseDF f)
        (to_translation_df t0)).getD i default).2) =
      (rest.map (fun v => selR ((v.getD i default).2))).foldl op
        (selR ((t0.getD i default).2)) := by
  have hlen : ∀ u ∈ t0 :: rest, u.length = rois.length := by
    intro u hu
    have h2 := congrArg List.length (hnames u hu)
    rwa [List.length_map] at h2
  have ht0len : (to_translation_df t0).length = rois.length := by
    unfold to_translation_df
    rw [List.length_map]
    exact hlen t0 (List.mem_cons_self _ _)
  have hrestlen : ∀ u ∈ rest.map to_translation_df, u.length = rois.length := by
    intro u hu
    rcases List.mem_map.mp hu with ⟨v, hv, rfl⟩
    unfold to_translation_df
    rw [List.length_map]
    exact hlen v (List.mem_cons_of_mem _ hv)
  rw [(minmax_foldl_spec f rois.length (rest.map to_translation_df) (to_translation_df t0)
      ht0len hrestlen).2.2 i hi]
  have hgetT0 : (to_translation_df t0).getD i default =
      ((t0.getD i default).1, ⟨(t0.getD i default).2.translation_z,
        (t0.getD i default).2.translation_y, (t0.getD i default).2.translation_x⟩) :=
    getD_map_of_lt default default _ t0 i
      (by rw [hlen t0 (List.mem_cons_self _ _)]; exact hi)
  rw [hgetT0]
  dsimp only
  rw [List.foldl_map, ← List.foldl_map
      (fun v : ROITable => ((to_translation_df v).getD i default).2) f, hfold, List.map_map]
  rw [hsel]
  congr 1
  apply List.map_congr_left
  intro v hv
  simp only [Function.comp]
  unfold to_translation_df
  rw [getD_map_of_lt default default _ v i
      (by rw [hlen v (List.mem_cons_of_mem _ hv)]; exact hi)]
  exact hsel _

/-- The labels of to_translation_df are the table's ROI names. -/
lemma to_translation_df_names (u : ROITable) :
    (to_translation_df u).map Prod.fst = u.map Prod.fst := by
  unfold to_translation_df
  rw [List.map_map]
  rfl

/-- Claim C1: for a collection of per-cycle ROI tables carrying translation
columns and sharing the same ROI names, the reconciler helpers produce, for
each cycle, each ROI and each axis, new_position = old_position + max_shift
- own_shift and new_extent = old_extent - max_shift + min_shift, where
max_shift and min_shift are the maximum and minimum of that ROI's
translation for that axis across all cycles. -/
theorem c1_registration_reconciler
    (ts : List ROITable) (rois : List String) (hne : ts ≠ [])
    (hnames : ∀ t ∈ ts, t.map Prod.fst = rois) (hnd : rois.Nodup) :
    ∀ t ∈ ts, ∀ i, i < rois.length →
      ∃ Mz mz My my Mx mx : ℚ,
        (Mz ∈ ts.map (fun tc => (tc.getD i default).2.translation_z) ∧
          ∀ q ∈ ts.map (fun tc => (tc.getD i default).2.translation_z), q ≤ Mz) ∧
        (mz ∈ ts.map (fun tc => (tc.getD i default).2.translation_z) ∧
          ∀ q ∈ ts.map (fun tc => (tc.getD i default).2.translation_z), mz ≤ q) ∧
        (My ∈ ts.map (fun tc => (tc.getD i default).2.translation_y) ∧
          ∀ q ∈ ts.map (fun tc => (tc.getD i default).2.translation_y), q ≤ My) ∧
        (my ∈ ts.map (fun tc => (tc.getD i default).2.translation_y) ∧
          ∀ q ∈ ts.map (fun tc => (tc.getD i default).2.translation_y), my ≤ q) ∧
        (Mx ∈ ts.map (fun tc => (tc.getD i default).2.translation_x) ∧
          ∀ q ∈ ts.map (fun tc => (tc.getD i default).2.translation_x), q ≤ Mx) ∧
        (mx ∈ ts.map (fun tc => (tc.getD i default).2.translation_x) ∧
          ∀ q ∈ ts.map (fun tc => (tc.getD i default).2.translation_x), mx ≤ q) ∧
        (((apply_registration_to_single_ROI_table t
              (calculate_min_max_across_dfs (ts.map to_translation_df)).1
              (calculate_min_max_across_dfs (ts.map to_translation_df)).2
              rois).getD i default).2.z_micrometer =
            (t.getD i default).2.z_micrometer + Mz - (t.getD i default).2.translation_z ∧
          ((apply_registration_to_single_ROI_table t
              (calculate_min_max_across_dfs (ts.map to_translation_df)).1
              (calculate_min_max_across_dfs (ts.map to_translation_df)).2
              rois).getD i default).2.y_micrometer =
            (t.getD i default).2.y_micrometer + My - (t.getD i default).2.translation_y ∧
          ((apply_registration_to_single_ROI_table t
              (calculate_min_max_across_dfs (ts.map to_translation_df)).1
              (calculate_min_max_across_dfs (ts.map to_translation_df)).2
              rois).getD i default).2.x_micrometer =
            (t.getD i default).2.x_micrometer + Mx - (t.getD i default).2.translation_x ∧
          ((apply_registration_to_single_ROI_table t
              (calculate_min_max_across_dfs (ts.map to_translation_df)).1
              (calculate_min_max_across_dfs (ts.map to_translation_df)).2
              rois).getD i default).2.len_z_micrometer =
            (t.getD i default).2.len_z_micrometer - Mz + mz ∧
          ((apply_registration_to_single_ROI_table t
              (calculate_min_max_across_dfs (ts.map to_translation_df)).1
              (calculate_min_max_across_dfs (ts.map to_translation_df)).2
              rois).getD i default).2.len_y_micrometer =
            (t.getD i default).2.len_y_micrometer - My + my ∧
          ((apply_registration_to_single_ROI_table t
              (calculate_min_max_across_dfs (ts.map to_translation_df)).1
              (calculate_min_max_across_dfs (ts.map to_translation_df)).2
              rois).getD i default).2.len_x_micrometer =
            (t.getD i default).2.len_x_micrometer - Mx + mx) := by
  rcases ts with _ | ⟨t0, rest⟩
  · intro t ht; cases ht
  intro t ht i hi
  have hlen : ∀ u ∈ t0 :: rest, u.length = rois.length := by
    intro u hu
    have h2 := congrArg List.length (hnames u hu)
    rwa [List.length_map] at h2
  have hit : i < t.length := by rw [hlen t ht]; exact hi
  -- the two frames
  have hcalc : calculate_min_max_across_dfs ((t0 :: rest).map to_translation_df) =
      ((rest.map to_translation_df).foldl (elementwiseDF tmax) (to_translation_df t0),
       (rest.map to_translation_df).foldl (elementwiseDF tmin) (to_translation_df t0)) := by
    rw [List.map_cons]
    rfl
  have ht0len : (to_translation_df t0).length = rois.length := by
    unfold to_translation_df
    rw [List.length_map]
    exact hlen t0 (List.mem_cons_self _ _)
  have hrestlen : ∀ u ∈ rest.map to_translation_df, u.length = rois.length := by
    intro u hu
    rcases List.mem_map.mp hu with ⟨v, hv, rfl⟩
    unfold to_translation_df
    rw [List.length_map]
    exact hlen v (List.mem_cons_of_mem _ hv)
  have hmxnames :
      ((rest.map to_translation_df).foldl (elementwiseDF tmax)
        (to_translation_df t0)).map Prod.fst = rois := by
    rw [(minmax_foldl_spec tmax rois.length _ _ ht0len hrestlen).2.1,
        to_translation_df_names]
    exact hnames t0 (List.mem_cons_self _ _)
  have hmnnames :
      ((rest.map to_translation_df).foldl (elementwiseDF tmin)
        (to_translation_df t0)).map Prod.fst = rois := by
    rw [(minmax_foldl_spec tmin rois.length _ _ ht0len hrestlen).2.1,
        to_translation_df_names]
    exact hnames t0 (List.mem_cons_self _ _)
  -- the registered row
  have hname_i : (t.getD i default).1 = rois.getD i "" := by
    have h2 := hnames t ht
    have h3 := getD_map_of_lt default "" Prod.fst t i hit
    rw [h2] at h3
    exact h3.symm
  have hmem_i : rois.getD i "" ∈ rois := by
    rw [List.getD_eq_getElem _ _ hi]
    exact List.getElem_mem hi
  have happly := apply_registration_getD
    (calculate_min_max_across_dfs ((t0 :: rest).map to_translation_df)).1
    (calculate_min_max_across_dfs ((t0 :: rest).map to_translation_df)).2
    rois t i hit
  rw [register_foldl_mem _ _ (t.getD i default) rois hnd (by rw [hname_i]; exact hmem_i)]
    at happly
  rw [hname_i] at happly
  have hlookmax := dfLookup_of_names
    (calculate_min_max_across_dfs ((t0 :: rest).map to_translation_df)).1 rois
    (by rw [hcalc]; exact hmxnames) hnd i hi
  have hlookmin := dfLookup_of_names
    (calculate_min_max_across_dfs ((t0 :: rest).map to_translation_df)).2 rois
    (by rw [hcalc]; exact hmnnames) hnd i hi
  rw [hlookmax, hlookmin] at happly
  -- column values of the two frames
  have hMz := minmax_column tmax max Translation.z ROIRecord.translation_z
    (fun _ => rfl) tmax_foldl_z t0 rest rois hnames i hi
  have hMy := minmax_column tmax max Translation.y ROIRecord.translation_y
    (fun _ => rfl) tmax_foldl_y t0 rest rois hnames i hi
  have hMx := minmax_column tmax max Translation.x ROIRecord.translation_x
    (fun _ => rfl) tmax_foldl_x t0 rest rois hnames i hi
  have hmz := minmax_column tmin min Translation.z ROIRecord.translation_z
    (fun _ => rfl) tmin_foldl_z t0 rest rois hnames i hi
  have hmy := minmax_column tmin min Translation.y ROIRecord.translation_y
    (fun _ => rfl) tmin_foldl_y t0 rest rois hnames i hi
  have hmx := minmax_column tmin min Translation.x ROIRecord.translation_x
    (fun _ => rfl) tmin_foldl_x t0 rest rois hnames i hi
  refine ⟨(rest.map (fun v => (v.getD i default).2.translation_z)).foldl max
      ((t0.getD i default).2.translation_z),
    (rest.map (fun v => (v.getD i default).2.translation_z)).foldl min
      ((t0.getD i default).2.translation_z),
    (rest.map (fun v => (v.getD i default).2.translation_y)).foldl max
      ((t0.getD i default).2.translation_y),
    (rest.map (fun v => (v.getD i default).2.translation_y)).foldl min
      ((t0.getD i default).2.translation_y),
    (rest.map (fun v => (v.getD i default).2.translation_x)).foldl max
      ((t0.getD i default).2.translation_x),
    (rest.map (fun v => (v.getD i default).2.translation_x)).foldl min
      ((t0.getD i default).2.translation_x),
    ?_, ?_, ?_, ?_, ?_, ?_, ?_⟩
  · rw [List.map_cons]
    exact foldl_max_spec _ _
  · rw [List.map_cons]
    exact foldl_min_spec _ _
  · rw [List.map_cons]
    exact foldl_max_spec _ _
  · rw [List.map_cons]
    exact foldl_min_spec _ _
  · rw [List.map_cons]
    exact foldl_max_spec _ _
  · rw [List.map_cons]
    exact foldl_min_spec _ _
  · rw [happly]
    rw [hcalc]
    dsimp only
    simp only [registerRecord]
    rw [hMz, hMy, hMx, hmz, hmy, hmx]
    exact ⟨rfl, rfl, rfl, rfl, rfl, rfl⟩

/-- First cycle's one-ROI table for the C1 witness: positions (0,0,0),
extents (10,20,30), zero translations. -/
def c1_cycle_a : ROITable := [("FOV_1", ⟨0, 0, 0, 10, 20, 30, 0, 0, 0⟩)]

/-- Second cycle's one-ROI table for the C1 witness: positions (1,2,3),
extents (10,20,30), translations (2,-3,5). -/
def c1_cycle_b : ROITable := [("FOV_1", ⟨1, 2, 3, 10, 20, 30, 2, -3, 5⟩)]

/-- Witness for C1: with cycles carrying translations (0,0,0) and (2,-3,5),
the second cycle's registered ROI has position (1+2-2, 2+0-(-3), 3+5-5) and
extent (10-2+0, 20-0+(-3), 30-5+0). -/
theorem c1_registration_reconciler_witness :
    ((apply_registration_to_single_ROI_table c1_cycle_b
        (calculate_min_max_across_dfs ([c1_cycle_a, c1_cycle_b].map to_translation_df)).1
        (calculate_min_max_across_dfs ([c1_cycle_a, c1_cycle_b].map to_translation_df)).2
        ["FOV_1"]).getD 0 default).2.z_micrometer = 1 + 2 - 2 ∧
    ((apply_registration_to_single_ROI_table c1_cycle_b
        (calculate_min_max_across_dfs ([c1_cycle_a, c1_cycle_b].map to_translation_df)).1
        (calculate_min_max_across_dfs ([c1_cycle_a, c1_cycle_b].map to_translation_df)).2
        ["FOV_1"]).getD 0 default).2.y_micrometer = 2 + 0 - (-3) ∧
    ((apply_registration_to_single_ROI_table c1_cycle_b
        (calculate_min_max_across_dfs ([c1_cycle_a, c1_cycle_b].map to_translation_df)).1
        (calculate_min_max_across_dfs ([c1_cycle_a, c1_cycle_b].map to_translation_df)).2
        ["FOV_1"]).getD 0 default).2.x_micrometer = 3 + 5 - 5 ∧
    ((apply_registration_to_single_ROI_table c1_cycle_b
        (calculate_min_max_across_dfs ([c1_cycle_a, c1_cycle_b].map to_translation_df)).1
        (calculate_min_max_across_dfs ([c1_cycle_a, c1_cycle_b].map to_translation_df)).2
        ["FOV_1"]).getD 0 default).2.len_z_micrometer = 10 - 2 + 0 ∧
    ((apply_registration_to_single_ROI_table c1_cycle_b
        (calculate_min_max_across_dfs ([c1_cycle_a, c1_cycle_b].map to_translation_df)).1
        (calculate_min_max_across_dfs ([c1_cycle_a, c1_cycle_b].map to_translation_df)).2
        ["FOV_1"]).getD 0 default).2.len_y_micrometer = 20 - 0 + (-3) ∧
    ((apply_registration_to_single_ROI_table c1_cycle_b
        (calculate_min_max_across_dfs ([c1_cycle_a, c1_cycle_b].map to_translation_df)).1
        (calculate_min_max_across_dfs ([c1_cycle_a, c1_cycle_b].map to_translation_df)).2
        ["FOV_1"]).getD 0 default).2.len_x_micrometer = 30 - 5 + 0 := by
  obtain ⟨Mz, mz, My, my, Mx, mx, hA, hB, hC, hD, hE, hF, heqs⟩ :=
    c1_registration_reconciler [c1_cycle_a, c1_cycle_b] ["FOV_1"]
      (by decide) (by decide) (by decide) c1_cycle_b
      (List.mem_cons_of_mem _ (List.mem_cons_self _ _)) 0 (by decide)
  have hlz : [c1_cycle_a, c1_cycle_b].map
      (fun tc => (tc.getD 0 default).2.translation_z) = [0, 2] := rfl
  have hly : [c1_cycle_a, c1_cycle_b].map
      (fun tc => (tc.getD 0 default).2.translation_y) = [0, -3] := rfl
  have hlx : [c1_cycle_a, c1_cycle_b].map
      (fun tc => (tc.getD 0 default).2.translation_x) = [0, 5] := rfl
  rw [hlz] at hA hB
  rw [hly] at hC hD
  rw [hlx] at hE hF
  have hMz : Mz = 2 := by
    have h2 : (2 : ℚ) ≤ Mz := hA.2 2 (by simp)
    rcases (by simpa using hA.1 : Mz = 0 ∨ Mz = 2) with h | h
    · rw [h] at h2; norm_num at h2
    · exact h
  have hmz : mz = 0 := by
    have h2 : mz ≤ (0 : ℚ) := hB.2 0 (by simp)
    rcases (by simpa using hB.1 : mz = 0 ∨ mz = 2) with h | h
    · exact h
    · rw [h] at h2; norm_num at h2
  have hMy : My = 0 := by
    have h2 : (0 : ℚ) ≤ My := hC.2 0 (by simp)
    rcases (by simpa using hC.1 : My = 0 ∨ My = -3) with h | h
    · exact h
    · rw [h] at h2; norm_num at h2
  have hmy : my = -3 := by
    have h2 : my ≤ (-3 : ℚ) := hD.2 (-3) (by simp)
    rcases (by simpa using hD.1 : my = 0 ∨ my = -3) with h | h
    · rw [h] at h2; norm_num at h2
    · exact h
  have hMx : Mx = 5 := by
    have h2 : (5 : ℚ) ≤ Mx := hE.2 5 (by simp)
    rcases (by simpa using hE.1 : Mx = 0 ∨ Mx = 5) with h | h
    · rw [h] at h2; norm_num at h2
    · exact h
  have hmx : mx = 0 := by
    have h2 : mx ≤ (0 : ℚ) := hF.2 0 (by simp)
    rcases (by simpa using hF.1 : mx = 0 ∨ mx = 5) with h | h
    · exact h
    · rw [h] at h2; norm_num at h2
  subst hMz hmz hMy hmy hMx hmx
  exact heqs

/-- Updating a present key makes lookup return the new value. -/
lemma dictLookup_map_update (k v : PyStr) :
    ∀ d : List (PyStr × PyStr), d.any (fun p => p.1 = k) = true →
      dictLookup (d.map (fun p => if p.1 = k then (p.1, v) else p)) k = some v := by
  intro d
  induction d with
  | nil => intro h; simp at h
  | cons p ps ih =>
    intro hany
    rw [List.map_cons]
    by_cases hp : p.1 = k
    · rw [if_pos hp]
      unfold dictLookup
      rw [List.find?_cons_of_pos _ (by simpa using hp)]
      simp
    · rw [if_neg hp]
      unfold dictLookup at ih ⊢
      rw [List.find?_cons_of_neg _ (by simpa using hp)]
      apply ih
      rcases List.any_eq_true.mp hany with ⟨q, hq, hqk⟩
      rcases List.mem_cons.mp hq with rfl | hq2
      · exact absurd (of_decide_eq_true hqk) hp
      · exact List.any_eq_true.mpr ⟨q, hq2, hqk⟩

/-- Appending a fresh key makes lookup return its value. -/
lemma dictLookup_append_new (k v : PyStr) :
    ∀ d : List (PyStr × PyStr), d.any (fun p => p.1 = k) = false →
      dictLookup (d ++ [(k, v)]) k = some v := by
  intro d
  induction d with
  | nil => intro _; simp [dictLookup]
  | cons p ps ih =>
    intro hany
    rw [List.any_cons, Bool.or_eq_false_iff] at hany
    unfold dictLookup at ih ⊢
    rw [List.cons_append, List.find?_cons_of_neg _ (by simpa using hany.1)]
    exact ih hany.2

/-- dict upsert then lookup of the same key gives the inserted value. -/
lemma dictLookup_upsert_self (d : List (PyStr × PyStr)) (k v : PyStr) :
    dictLookup (dictUpsert d k v) k = some v := by
  unfold dictUpsert
  by_cases h : d.any (fun p => p.1 = k) = true
  · rw [if_pos h]; exact dictLookup_map_update k v d h
  · rw [if_neg h]; exact dictLookup_append_new k v d (eq_false_of_ne_true h)

/-- dict upsert of a different key does not change a lookup. -/
lemma dictLookup_upsert_other (d : List (PyStr × PyStr)) (k k2 v : PyStr) (hne : k2 ≠ k) :
    dictLookup (dictUpsert d k2 v) k = dictLookup d k := by
  unfold dictUpsert
  by_cases h : d.any (fun p => p.1 = k2) = true
  · rw [if_pos h]
    induction d with
    | nil => rfl
    | cons p ps ih =>
      rw [List.map_cons]
      by_cases hp : p.1 = k2
      · rw [if_pos hp]
        unfold dictLookup
        have hpk : ¬(p.1 = k) := fun hc => hne (hp ▸ hc)
        rw [List.find?_cons_of_neg _ (by simpa using hpk),
            List.find?_cons_of_neg _ (by simpa using hpk)]
        by_cases hps : ps.any (fun q => q.1 = k2) = true
        · exact ih hps
        · have hmap : ps.map (fun q => if q.1 = k2 then (q.1, v) else q) = ps.map id := by
            apply List.map_congr_left
            intro q hq
            simp only [id]
            rw [if_neg]
            intro hqk
            rw [List.any_eq_true] at hps
            exact hps ⟨q, hq, by simpa using hqk⟩
          rw [hmap, List.map_id]
      · rw [if_neg hp]
        unfold dictLookup
        by_cases hpk : p.1 = k
        · rw [List.find?_cons_of_pos _ (by simpa using hpk),
              List.find?_cons_of_pos _ (by simpa using hpk)]
        · rw [List.find?_cons_of_neg _ (by simpa using hpk),
              List.find?_cons_of_neg _ (by simpa using hpk)]
          by_cases hps : ps.any (fun q => q.1 = k2) = true
          · exact ih hps
          · rw [List.any_cons, Bool.or_eq_true] at h
            rcases h with h | h
            · exact absurd (of_decide_eq_true h) hp
            · exact ih h
  · rw [if_neg h]
    unfold dictLookup
    rw [List.find?_append]
    have : [(k2, v)].find? (fun p => p.1 = k) = none := by
      simp [List.find?, hne]
    rw [this]
    cases d.find? (fun p => p.1 = k) <;> rfl

/-- Inserting pairs whose keys all differ from k leaves the lookup of k
unchanged. -/
lemma dictLookup_foldl_not_mem (k : PyStr) :
    ∀ (ps : List (PyStr × PyStr)) (d : List (PyStr × PyStr)),
      (∀ kv ∈ ps, kv.1 ≠ k) →
      dictLookup (ps.foldl (fun d kv => dictUpsert d kv.1 kv.2) d) k = dictLookup d k := by
  intro ps
  induction ps with
  | nil => intro d _; rfl
  | cons q rest ih =>
    intro d h
    rw [List.foldl_cons]
    rw [ih _ (fun kv hkv => h kv (List.mem_cons_of_mem q hkv))]
    exact dictLookup_upsert_other d k q.1 q.2 (h q (List.mem_cons_self q rest))

/-- When the inserted keys are distinct, each inserted pair is found by
lookup afterwards. -/
lemma dictLookup_foldl_mem :
    ∀ (ps : List (PyStr × PyStr)) (d : List (PyStr × PyStr)),
      (ps.map Prod.fst).Nodup →
      ∀ kv ∈ ps, dictLookup (ps.foldl (fun d kv => dictUpsert d kv.1 kv.2) d) kv.1 = some kv.2 := by
  intro ps
  induction ps with
  | nil => intro d _ kv hkv; cases hkv
  | cons q rest ih =>
    intro d hnd kv hkv
    rw [List.map_cons, List.nodup_cons] at hnd
    rw [List.foldl_cons]
    rcases List.mem_cons.mp hkv with rfl | hkv2
    · rw [dictLookup_foldl_not_mem kv.1 rest _ ?hks]
      · exact dictLookup_upsert_self d kv.1 kv.2
      case hks =>
        intro kv2 hkv2 hc
        exact hnd.1 (hc ▸ List.mem_map_of_mem Prod.fst hkv2)
    · exact ih _ hnd.2 kv hkv2

/-- The TFLAZC-token stage errors exactly under the shape and key/value
conditions it checks. -/
lemma parse_TFLAZC_error_iff (t : PyStr) :
    isErrE (parse_TFLAZC t) = true ↔
      ((reSplitDigits t).getLastD [] ≠ [] ∨ (reSplitDigits t).length ≠ 13 ∨
        (pairUp (reSplitDigits t).dropLast).any
          (fun kv => pyIsDigit kv.1 || !pyIsDigit kv.2) = true) := by
  unfold parse_TFLAZC
  by_cases h1 : ((reSplitDigits t).getLastD [] ≠ [] ∨ (reSplitDigits t).length ≠ 13)
  · rw [if_pos h1]
    simp only [isErrE, true_iff]
    tauto
  · rw [if_neg h1]
    by_cases h2 : ((pairUp (reSplitDigits t).dropLast).any
        (fun kv => pyIsDigit kv.1 || !pyIsDigit kv.2) = true)
    · rw [if_pos h2]
      simp only [isErrE, true_iff]
      tauto
    · rw [if_neg h2]
      simp only [isErrE, false_iff]
      tauto

/-- A successful TFLAZC parse returns exactly the paired-up pieces. -/
lemma parse_TFLAZC_ok (t : PyStr) (pairs : List (PyStr × PyStr))
    (h : parse_TFLAZC t = .ok pairs) : pairs = pairUp (reSplitDigits t).dropLast := by
  unfold parse_TFLAZC at h
  by_cases h1 : ((reSplitDigits t).getLastD [] ≠ [] ∨ (reSplitDigits t).length ≠ 13)
  · rw [if_pos h1] at h; cases h
  · rw [if_neg h1] at h
    by_cases h2 : ((pairUp (reSplitDigits t).dropLast).any
        (fun kv => pyIsDigit kv.1 || !pyIsDigit kv.2) = true)
    · rw [if_pos h2] at h; cases h
    · rw [if_neg h2] at h
      injection h with h
      exact h.symm

/-- Counterexample to C8: the token A01A02Z14C01T0001F006 satisfies every
condition of the claim (13 pieces ending in an empty string, no all-digit
key, all-digit values), parsing succeeds, but the output does not contain
all 6 key/value pairs: the duplicate key A makes the pair ("A", "01")
disappear, overwritten by ("A", "02"). -/
theorem c8_counterexample :
    (reSplitDigits (pstr "A01A02Z14C01T0001F006")).getLastD [] = [] ∧
    (reSplitDigits (pstr "A01A02Z14C01T0001F006")).length = 13 ∧
    (pairUp (reSplitDigits (pstr "A01A02Z14C01T0001F006")).dropLast).any
      (fun kv => pyIsDigit kv.1 || !pyIsDigit kv.2) = false ∧
    (pstr "A", pstr "01") ∈ pairUp (reSplitDigits (pstr "A01A02Z14C01T0001F006")).dropLast ∧
    parse_filename (pstr "x_B03_A01A02Z14C01T0001F006") =
      .ok [(pstr "plate_prefix", pstr "x"), (pstr "plate", pstr "x"),
           (pstr "well", pstr "B03"), (pstr "A", pstr "02"), (pstr "Z", pstr "14"),
           (pstr "C", pstr "01"), (pstr "T", pstr "0001"), (pstr "F", pstr "006")] ∧
    (pstr "A", pstr "01") ∉
      [(pstr "plate_prefix", pstr "x"), (pstr "plate", pstr "x"),
       (pstr "well", pstr "B03"), (pstr "A", pstr "02"), (pstr "Z", pstr "14"),
       (pstr "C", pstr "01"), (pstr "T", pstr "0001"), (pstr "F", pstr "006")] := by decide

/-- Claim C8, amended: for a filename whose stripped name has at least 3
underscore fields, parsing fails (with no partial output) exactly when the
final metadata token, split on digit runs, does not end in a digit run, or
does not yield 13 pieces ending in an empty string, or has an all-digit key
or a non-digit value; otherwise parsing succeeds and the six pairs are
inserted into the output in order, a later duplicate key overwriting an
earlier one — so when the six keys are distinct every pair appears in the
output. -/
theorem c8_token_stage (fname s : PyStr) (hstem : pyStem fname = some s)
    (hf : 3 ≤ (List.splitOn '_' s).length) :
    (isErrE (parse_filename fname) = true ↔
      ((reSplitDigits ((List.splitOn '_' s).getLastD [])).getLastD [] ≠ [] ∨
        (reSplitDigits ((List.splitOn '_' s).getLastD [])).length ≠ 13 ∨
        (pairUp (reSplitDigits ((List.splitOn '_' s).getLastD [])).dropLast).any
          (fun kv => pyIsDigit kv.1 || !pyIsDigit kv.2) = true)) ∧
    (∀ d, parse_filename fname = .ok d →
      ((pairUp (reSplitDigits ((List.splitOn '_' s).getLastD [])).dropLast).map
        Prod.fst).Nodup →
      ∀ kv ∈ pairUp (reSplitDigits ((List.splitOn '_' s).getLastD [])).dropLast,
        dictLookup d kv.1 = some kv.2) := by
  have hlt : ¬((List.splitOn '_' s).length < 3) := by omega
  have hred : parse_filename fname =
      (match parse_TFLAZC ((List.splitOn '_' s).getLastD []) with
       | .error e => .error e
       | .ok pairs => .ok (pairs.foldl (fun d kv => dictUpsert d kv.1 kv.2)
           [(pstr "plate_prefix",
              List.intercalate ['_'] ((List.splitOn '_' s).dropLast.dropLast)),
            (pstr "plate",
              get_plate_name (List.intercalate ['_'] ((List.splitOn '_' s).dropLast.dropLast))),
            (pstr "well",
              (List.splitOn '_' s).getD ((List.splitOn '_' s).length - 2) [])])) := by
    simp only [parse_filename, hstem]
    rw [if_neg hlt]
  constructor
  · rw [hred]
    cases htok : parse_TFLAZC ((List.splitOn '_' s).getLastD []) with
    | error e =>
      have hcond := (parse_TFLAZC_error_iff ((List.splitOn '_' s).getLastD [])).mp
        (by rw [htok]; rfl)
      exact ⟨fun _ => hcond, fun _ => rfl⟩
    | ok pairs =>
      have hcond : ¬((reSplitDigits ((List.splitOn '_' s).getLastD [])).getLastD [] ≠ [] ∨
          (reSplitDigits ((List.splitOn '_' s).getLastD [])).length ≠ 13 ∨
          (pairUp (reSplitDigits ((List.splitOn '_' s).getLastD [])).dropLast).any
            (fun kv => pyIsDigit kv.1 || !pyIsDigit kv.2) = true) := by
        intro hc
        have h2 := (parse_TFLAZC_error_iff ((List.splitOn '_' s).getLastD [])).mpr hc
        rw [htok] at h2
        exact absurd h2 (by simp [isErrE])
      constructor
      · intro hfalse
        exact absurd hfalse (by simp [isErrE])
      · intro hc
        exact absurd hc hcond
  · intro d hd hnd kv hkv
    rw [hred] at hd
    cases htok : parse_TFLAZC ((List.splitOn '_' s).getLastD []) with
    | error e => rw [htok] at hd; cases hd
    | ok pairs =>
      rw [htok] at hd
      injection hd with hd
      have hpairs := parse_TFLAZC_ok _ _ htok
      subst hd
      rw [← hpairs] at hnd hkv
      exact dictLookup_foldl_mem pairs _ hnd kv hkv

/-- Witness for C8 (amended): a well-formed filename parses and every token
pair is found in the output dict. -/
theorem c8_token_stage_witness :
    dictLookup [(pstr "plate_prefix", pstr "x"), (pstr "plate", pstr "x"),
      (pstr "well", pstr "B03"), (pstr "T", pstr "0001"), (pstr "F", pstr "006"),
      (pstr "L", pstr "01"), (pstr "A", pstr "04"), (pstr "Z", pstr "14"),
      (pstr "C", pstr "01")] (pstr "T") = some (pstr "0001") :=
  (c8_token_stage (pstr "x_B03_T0001F006L01A04Z14C01")
    (pstr "x_B03_T0001F006L01A04Z14C01") (by decide) (by decide)).2
    [(pstr "plate_prefix", pstr "x"), (pstr "plate", pstr "x"),
     (pstr "well", pstr "B03"), (pstr "T", pstr "0001"), (pstr "F", pstr "006"),
     (pstr "L", pstr "01"), (pstr "A", pstr "04"), (pstr "Z", pstr "14"),
     (pstr "C", pstr "01")] (by decide) (by decide) (pstr "T", pstr "0001") (by decide)

/-- Lookups of the three metadata keys in the freshly initialised output
dict. -/
lemma dictLookup_meta_init (A B C : PyStr) :
    dictLookup [(pstr "plate_prefix", A), (pstr "plate", B), (pstr "well", C)]
        (pstr "well") = some C ∧
    dictLookup [(pstr "plate_prefix", A), (pstr "plate", B), (pstr "well", C)]
        (pstr "plate_prefix") = some A ∧
    dictLookup [(pstr "plate_prefix", A), (pstr "plate", B), (pstr "well", C)]
        (pstr "plate") = some B := by
  refine ⟨?_, ?_, ?_⟩
  · unfold dictLookup
    rw [List.find?_cons_of_neg _
          (by show ¬decide (pstr "plate_prefix" = pstr "well") = true; decide),
        List.find?_cons_of_neg _ (by show ¬decide (pstr "plate" = pstr "well") = true; decide),
        List.find?_cons_of_pos _ (by show decide (pstr "well" = pstr "well") = true; decide)]
    rfl
  · unfold dictLookup
    rw [List.find?_cons_of_pos _
          (by show decide (pstr "plate_prefix" = pstr "plate_prefix") = true; decide)]
    rfl
  · unfold dictLookup
    rw [List.find?_cons_of_neg _
          (by show ¬decide (pstr "plate_prefix" = pstr "plate") = true; decide),
        List.find?_cons_of_pos _ (by show decide (pstr "plate" = pstr "plate") = true; decide)]
    rfl

/-- Counterexample to C9: a filename whose metadata token carries the letter
key "plate" parses successfully, but the returned plate entry is the token
value "1", not the plate name derived from the prefix "x" as the claim
states. -/
theorem c9_counterexample :
    parse_filename (pstr "x_B03_plate1A04Z14C01T0001F006") =
      .ok [(pstr "plate_prefix", pstr "x"), (pstr "plate", pstr "1"),
           (pstr "well", pstr "B03"), (pstr "A", pstr "04"), (pstr "Z", pstr "14"),
           (pstr "C", pstr "01"), (pstr "T", pstr "0001"), (pstr "F", pstr "006")] ∧
    get_plate_name (pstr "x") = pstr "x" ∧
    dictLookup [(pstr "plate_prefix", pstr "x"), (pstr "plate", pstr "1"),
        (pstr "well", pstr "B03"), (pstr "A", pstr "04"), (pstr "Z", pstr "14"),
        (pstr "C", pstr "01"), (pstr "T", pstr "0001"), (pstr "F", pstr "006")]
      (pstr "plate") = some (pstr "1") ∧
    pstr "1" ≠ pstr "x" := by decide

/-- Claim C9, amended: a filename with fewer than 3 underscore fields fails;
when parsing succeeds and no metadata-token key equals plate_prefix, plate
or well, the output takes the second-to-last field as the well label and the
plate from get_plate_name of the joined prefix, whose rules are: exactly 3
prefix fields with fields 1 and 2 each 6 digit characters give the barcode
field 0; else exactly 4 prefix fields, each 6 digit characters, give
"RS" + field 0 + field 1; else the raw prefix.  (A token key named
plate_prefix, plate or well would overwrite that output entry, which is the
correction the counterexample forces.) -/
theorem c9_plate_well_rules (fname s : PyStr) (hstem : pyStem fname = some s) :
    ((List.splitOn '_' s).length < 3 →
      parse_filename fname = .error "ValueError: filename not valid") ∧
    (∀ d, parse_filename fname = .ok d →
      (∀ kv ∈ pairUp (reSplitDigits ((List.splitOn '_' s).getLastD [])).dropLast,
        kv.1 ≠ pstr "plate_prefix" ∧ kv.1 ≠ pstr "plate" ∧ kv.1 ≠ pstr "well") →
      dictLookup d (pstr "well") =
        some ((List.splitOn '_' s).getD ((List.splitOn '_' s).length - 2) []) ∧
      dictLookup d (pstr "plate_prefix") =
        some (List.intercalate ['_'] ((List.splitOn '_' s).dropLast.dropLast)) ∧
      dictLookup d (pstr "plate") =
        some (get_plate_name
          (List.intercalate ['_'] ((List.splitOn '_' s).dropLast.dropLast)))) ∧
    (∀ platePfx : PyStr,
      (((List.splitOn '_' platePfx).length = 3 ∧
          ((List.splitOn '_' platePfx).getD 1 []).length = 6 ∧
          ((List.splitOn '_' platePfx).getD 2 []).length = 6 ∧
          pyIsDigit ((List.splitOn '_' platePfx).getD 1 []) ∧
          pyIsDigit ((List.splitOn '_' platePfx).getD 2 [])) →
        get_plate_name platePfx = (List.splitOn '_' platePfx).getD 0 []) ∧
      (¬((List.splitOn '_' platePfx).length = 3 ∧
          ((List.splitOn '_' platePfx).getD 1 []).length = 6 ∧
          ((List.splitOn '_' platePfx).getD 2 []).length = 6 ∧
          pyIsDigit ((List.splitOn '_' platePfx).getD 1 []) ∧
          pyIsDigit ((List.splitOn '_' platePfx).getD 2 [])) →
        ((List.splitOn '_' platePfx).length = 4 ∧
          ((List.splitOn '_' platePfx).getD 0 []).length = 6 ∧
          ((List.splitOn '_' platePfx).getD 1 []).length = 6 ∧
          ((List.splitOn '_' platePfx).getD 2 []).length = 6 ∧
          ((List.splitOn '_' platePfx).getD 3 []).length = 6 ∧
          pyIsDigit ((List.splitOn '_' platePfx).getD 0 []) ∧
          pyIsDigit ((List.splitOn '_' platePfx).getD 1 []) ∧
          pyIsDigit ((List.splitOn '_' platePfx).getD 2 []) ∧
          pyIsDigit ((List.splitOn '_' platePfx).getD 3 [])) →
        get_plate_name platePfx =
          pstr "RS" ++ (List.splitOn '_' platePfx).getD 0 [] ++
            (List.splitOn '_' platePfx).getD 1 []) ∧
      (¬((List.splitOn '_' platePfx).length = 3 ∧
          ((List.splitOn '_' platePfx).getD 1 []).length = 6 ∧
          ((List.splitOn '_' platePfx).getD 2 []).length = 6 ∧
          pyIsDigit ((List.splitOn '_' platePfx).getD 1 []) ∧
          pyIsDigit ((List.splitOn '_' platePfx).getD 2 [])) →
        ¬((List.splitOn '_' platePfx).length = 4 ∧
          ((List.splitOn '_' platePfx).getD 0 []).length = 6 ∧
          ((List.splitOn '_' platePfx).getD 1 []).length = 6 ∧
          ((List.splitOn '_' platePfx).getD 2 []).length = 6 ∧
          ((List.splitOn '_' platePfx).getD 3 []).length = 6 ∧
          pyIsDigit ((List.splitOn '_' platePfx).getD 0 []) ∧
          pyIsDigit ((List.splitOn '_' platePfx).getD 1 []) ∧
          pyIsDigit ((List.splitOn '_' platePfx).getD 2 []) ∧
          pyIsDigit ((List.splitOn '_' platePfx).getD 3 [])) →
        get_plate_name platePfx = platePfx)) := by
  refine ⟨?_, ?_, ?_⟩
  · intro hlen
    simp only [parse_filename, hstem]
    rw [if_pos hlen]
  · intro d hd hres
    by_cases hlen : (List.splitOn '_' s).length < 3
    · exfalso
      have herr : parse_filename fname = .error "ValueError: filename not valid" := by
        simp only [parse_filename, hstem]
        rw [if_pos hlen]
      rw [herr] at hd
      cases hd
    · have hred : parse_filename fname =
          (match parse_TFLAZC ((List.splitOn '_' s).getLastD []) with
           | .error e => .error e
           | .ok pairs => .ok (pairs.foldl (fun d kv => dictUpsert d kv.1 kv.2)
               [(pstr "plate_prefix",
                  List.intercalate ['_'] ((List.splitOn '_' s).dropLast.dropLast)),
                (pstr "plate",
                  get_plate_name
                    (List.intercalate ['_'] ((List.splitOn '_' s).dropLast.dropLast))),
                (pstr "well",
                  (List.splitOn '_' s).getD ((List.splitOn '_' s).length - 2) [])])) := by
        simp only [parse_filename, hstem]
        rw [if_neg hlen]
      rw [hred] at hd
      cases htok : parse_TFLAZC ((List.splitOn '_' s).getLastD []) with
      | error e => rw [htok] at hd; cases hd
      | ok pairs =>
        rw [htok] at hd
        injection hd with hd
        have hpairs := parse_TFLAZC_ok _ _ htok
        subst hd
        rw [← hpairs] at hres
        refine ⟨?_, ?_, ?_⟩
        · rw [dictLookup_foldl_not_mem _ pairs _ (fun kv hkv => (hres kv hkv).2.2)]
          exact (dictLookup_meta_init _ _ _).1
        · rw [dictLookup_foldl_not_mem _ pairs _ (fun kv hkv => (hres kv hkv).1)]
          exact (dictLookup_meta_init _ _ _).2.1
        · rw [dictLookup_foldl_not_mem _ pairs _ (fun kv hkv => (hres kv hkv).2.1)]
          exact (dictLookup_meta_init _ _ _).2.2
  · intro platePfx
    refine ⟨?_, ?_, ?_⟩
    · intro h1
      unfold get_plate_name
      rw [if_pos h1]
    · intro hn1 h2
      unfold get_plate_name
      rw [if_neg hn1, if_pos h2]
    · intro hn1 hn2
      unfold get_plate_name
      rw [if_neg hn1, if_neg hn2]

/-- Witness for C9 (amended): the spec's FMI barcode example filename; the
well is the second-to-last field and the plate is the barcode. -/
theorem c9_plate_well_rules_witness :
    dictLookup [(pstr "plate_prefix", pstr "210305NAR005AAN_210416_164828"),
      (pstr "plate", pstr "210305NAR005AAN"), (pstr "well", pstr "B11"),
      (pstr "T", pstr "0001"), (pstr "F", pstr "006"), (pstr "L", pstr "01"),
      (pstr "A", pstr "04"), (pstr "Z", pstr "14"), (pstr "C", pstr "01")]
      (pstr "well") = some (pstr "B11") ∧
    dictLookup [(pstr "plate_prefix", pstr "210305NAR005AAN_210416_164828"),
      (pstr "plate", pstr "210305NAR005AAN"), (pstr "well", pstr "B11"),
      (pstr "T", pstr "0001"), (pstr "F", pstr "006"), (pstr "L", pstr "01"),
      (pstr "A", pstr "04"), (pstr "Z", pstr "14"), (pstr "C", pstr "01")]
      (pstr "plate") = some (pstr "210305NAR005AAN") :=
  ⟨((c9_plate_well_rules
      (pstr "210305NAR005AAN_210416_164828_B11_T0001F006L01A04Z14C01.tif")
      (pstr "210305NAR005AAN_210416_164828_B11_T0001F006L01A04Z14C01")
      (by decide)).2.1
      [(pstr "plate_prefix", pstr "210305NAR005AAN_210416_164828"),
       (pstr "plate", pstr "210305NAR005AAN"), (pstr "well", pstr "B11"),
       (pstr "T", pstr "0001"), (pstr "F", pstr "006"), (pstr "L", pstr "01"),
       (pstr "A", pstr "04"), (pstr "Z", pstr "14"), (pstr "C", pstr "01")]
      (by decide) (by decide)).1,
   ((c9_plate_well_rules
      (pstr "210305NAR005AAN_210416_164828_B11_T0001F006L01A04Z14C01.tif")
      (pstr "210305NAR005AAN_210416_164828_B11_T0001F006L01A04Z14C01")
      (by decide)).2.1
      [(pstr "plate_prefix", pstr "210305NAR005AAN_210416_164828"),
       (pstr "plate", pstr "210305NAR005AAN"), (pstr "well", pstr "B11"),
       (pstr "T", pstr "0001"), (pstr "F", pstr "006"), (pstr "L", pstr "01"),
       (pstr "A", pstr "04"), (pstr "Z", pstr "14"), (pstr "C", pstr "01")]
      (by decide) (by decide)).2.2⟩

/-- An alphabetic character is not a dot. -/
lemma isAlpha_ne_dot {c : Char} (h : c.isAlpha = true) : ¬(c = '.') := by
  intro he; subst he; exact absurd h (by decide)

/-- A digit character is not a dot. -/
lemma isDigit_ne_dot {c : Char} (h : c.isDigit = true) : ¬(c = '.') := by
  intro he; subst he; exact absurd h (by decide)

/-- Claim C4: for valid well labels (alphabetic row, digit column) of shape
(1, 2) or (2, 3), decoding the encoded well id returns the original
(row, col) pair. -/
theorem c4_well_codec_roundtrip (row col : PyStr)
    (hrow : ∀ c ∈ row, c.isAlpha = true) (hcol : ∀ c ∈ col, c.isDigit = true)
    (hlen : (row.length = 1 ∧ col.length = 2) ∨ (row.length = 2 ∧ col.length = 3)) :
    (get_filename_well_id row col).bind _extract_row_col_from_well_id = .ok (row, col) := by
  rcases hlen with ⟨h1, h2⟩ | ⟨h1, h2⟩
  · obtain ⟨r, rfl⟩ := List.length_eq_one.mp h1
    obtain ⟨a, b, rfl⟩ := List.length_eq_two.mp h2
    have hr := isAlpha_ne_dot (hrow r (by simp))
    have ha := isDigit_ne_dot (hcol a (by simp))
    have hb := isDigit_ne_dot (hcol b (by simp))
    simp [get_filename_well_id, _extract_row_col_from_well_id, Except.bind, List.count_cons,
      hr, ha, hb]
  · obtain ⟨r0, r1, rfl⟩ := List.length_eq_two.mp h1
    obtain ⟨a, b, c, rfl⟩ := List.length_eq_three.mp h2
    have hr0 := isAlpha_ne_dot (hrow r0 (by simp))
    have hr1 := isAlpha_ne_dot (hrow r1 (by simp))
    have ha := isDigit_ne_dot (hcol a (by simp))
    have hb := isDigit_ne_dot (hcol b (by simp))
    have hc := isDigit_ne_dot (hcol c (by simp))
    simp [get_filename_well_id, _extract_row_col_from_well_id, Except.bind, List.count_cons,
      hr0, hr1, ha, hb, hc]

/-- Witness for C4: the round trip evaluated on the 1536-well label
("Bc", "023"). -/
theorem c4_well_codec_roundtrip_witness :
    (get_filename_well_id (pstr "Bc") (pstr "023")).bind _extract_row_col_from_well_id =
      .ok (pstr "Bc", pstr "023") :=
  c4_well_codec_roundtrip (pstr "Bc") (pstr "023") (by decide) (by decide) (by decide)

/-- Claim C5: encode returns the concatenation for (1, 2)-shaped labels and
row[0] + col[0:2] + "." + row[1] + col[2] for (2, 3)-shaped labels; in
particular encode("A","01") = "A01", encode("Aa","011") = "A01.a1" and
encode("Bc","023") = "B02.c3". -/
theorem c5_encode_formula (row col : PyStr) :
    (row.length = 1 → col.length = 2 → get_filename_well_id row col = .ok (row ++ col)) ∧
    (row.length = 2 → col.length = 3 →
      get_filename_well_id row col =
        .ok (row.take 1 ++ col.take 2 ++ ['.'] ++ row.drop 1 ++ col.drop 2)) ∧
    get_filename_well_id (pstr "A") (pstr "01") = .ok (pstr "A01") ∧
    get_filename_well_id (pstr "Aa") (pstr "011") = .ok (pstr "A01.a1") ∧
    get_filename_well_id (pstr "Bc") (pstr "023") = .ok (pstr "B02.c3") := by
  refine ⟨?_, ?_, by decide, by decide, by decide⟩
  · intro h1 h2
    unfold get_filename_well_id
    rw [if_pos ⟨h1, h2⟩]
  · intro h1 h2
    unfold get_filename_well_id
    rw [if_neg (fun hc => by omega), if_pos ⟨h1, h2⟩]

/-- Witness for C5: the general (1, 2) branch evaluated at a concrete
label. -/
theorem c5_encode_formula_witness :
    get_filename_well_id (pstr "Q") (pstr "42") = .ok (pstr "Q42") :=
  (c5_encode_formula (pstr "Q") (pstr "42")).1 (by decide) (by decide)

/-- Claim C6: encode fails with the shape error whenever the lengths are
neither (1, 2) nor (2, 3) — in particular on ("A","1") and ("Aaa","11") —
and decode fails with the shape error whenever the well id is neither
length 3 with no dot nor length 6 with exactly one dot. -/
theorem c6_shape_errors (row col wid : PyStr) :
    (¬(row.length = 1 ∧ col.length = 2) → ¬(row.length = 2 ∧ col.length = 3) →
      get_filename_well_id row col = .error unsupportedWellShapeMsg) ∧
    (¬(wid.length = 3 ∧ wid.count '.' = 0) → ¬(wid.length = 6 ∧ wid.count '.' = 1) →
      _extract_row_col_from_well_id wid = .error unsupportedWellShapeMsg) ∧
    get_filename_well_id (pstr "A") (pstr "1") = .error unsupportedWellShapeMsg ∧
    get_filename_well_id (pstr "Aaa") (pstr "11") = .error unsupportedWellShapeMsg := by
  refine ⟨?_, ?_, by decide, by decide⟩
  · intro h1 h2
    unfold get_filename_well_id
    rw [if_neg h1, if_neg h2]
  · intro h1 h2
    unfold _extract_row_col_from_well_id
    rw [if_neg h1, if_neg h2]

/-- Witness for C6: both the encoder and the decoder general error branches
evaluated at concrete inputs. -/
theorem c6_shape_errors_witness :
    get_filename_well_id (pstr "A") (pstr "1") = .error unsupportedWellShapeMsg ∧
    get_filename_well_id (pstr "Aaa") (pstr "11") = .error unsupportedWellShapeMsg ∧
    _extract_row_col_from_well_id (pstr "A1") = .error unsupportedWellShapeMsg :=
  ⟨(c6_shape_errors (pstr "A") (pstr "1") (pstr "A1")).2.2.1,
   (c6_shape_errors (pstr "Aaa") (pstr "11") (pstr "A1")).2.2.2,
   (c6_shape_errors (pstr "Aaa") (pstr "11") (pstr "A1")).2.1 (by decide) (by decide)⟩

/-- Claim C10: add_zero_translation_columns raises on any table already
carrying a translation column, and hence the reconciler's table-collection
step fails on a reference-cycle table that already carries translation
columns. -/
theorem c10_reference_translation_guard (t : AnnTable)
    (h : ∃ v ∈ t.var_names, v ∈ translation_columns) :
    add_zero_translation_columns t =
      .error ("ValueError: The roi table already contains translation columns. " ++
        "Did you enter a wrong reference cycle?") ∧
    ∀ r : Nat, collect_cycle_roi_table r r t =
      .error ("ValueError: The roi table already contains translation columns. " ++
        "Did you enter a wrong reference cycle?") := by
  have hany : t.var_names.any (fun v => translation_columns.contains v) = true := by
    rw [List.any_eq_true]
    obtain ⟨v, hv, hm⟩ := h
    exact ⟨v, hv, by simpa using hm⟩
  have herr : add_zero_translation_columns t =
      .error ("ValueError: The roi table already contains translation columns. " ++
        "Did you enter a wrong reference cycle?") := by
    unfold add_zero_translation_columns
    rw [if_pos hany]
  refine ⟨herr, fun r => ?_⟩
  unfold collect_cycle_roi_table
  rw [if_pos rfl, herr]

/-- Witness for C10: a table with an x-position column and a translation_x
column is rejected both by the helper and by the reference-cycle collection
step. -/
theorem c10_reference_translation_guard_witness :
    add_zero_translation_columns ⟨["FOV_1"], ["x_micrometer", "translation_x"], [[0, 1]]⟩ =
      .error ("ValueError: The roi table already contains translation columns. " ++
        "Did you enter a wrong reference cycle?") ∧
    collect_cycle_roi_table 0 0 ⟨["FOV_1"], ["x_micrometer", "translation_x"], [[0, 1]]⟩ =
      .error ("ValueError: The roi table already contains translation columns. " ++
        "Did you enter a wrong reference cycle?") :=
  ⟨(c10_reference_translation_guard _ ⟨"translation_x", by decide, by decide⟩).1,
   (c10_reference_translation_guard _ ⟨"translation_x", by decide, by decide⟩).2 0⟩

/-- Elementwise equality of two equal-length zipped lists is list
equality. -/
lemma zip_all_eq_iff {a b : List String} (h : a.length = b.length) :
    ((a.zip b).all (fun p => p.1 = p.2) = true) ↔ a = b := by
  induction a generalizing b with
  | nil =>
    cases b with
    | nil => simp
    | cons c cs => simp at h
  | cons x xs ih =>
    cases b with
    | nil => simp at h
    | cons y ys =>
      have h2 : xs.length = ys.length := by simpa using h
      simp [List.all_cons, ih h2, and_comm]

/-- The per-acquisition check passes exactly when the acquisition's ROI-name
sequence equals the reference sequence elementwise. -/
lemma check_acquisition_rois_ok_iff (rois : List String) (acq : Nat) (names : List String) :
    check_acquisition_rois rois acq names = .ok () ↔ names = rois := by
  unfold check_acquisition_rois indexEqualsAll
  by_cases hl : names.length = rois.length
  · rw [if_pos hl]
    by_cases hb : ((names.zip rois).all (fun p => p.1 = p.2) = true)
    · simp only [hb, if_true]
      simp [zip_all_eq_iff hl, hb]
      exact (zip_all_eq_iff hl).mp hb
    · simp only [eq_false_of_ne_true hb, if_false]
      constructor
      · intro hcontra; cases hcontra
      · intro he
        exact absurd ((zip_all_eq_iff hl).mpr he) hb
  · rw [if_neg hl]
    constructor
    · intro hcontra; cases hcontra
    · intro he; subst he; exact absurd rfl hl

/-- Counterexample to C2: an acquisition whose ROI names form the same set
as the reference's but in a different order is rejected, although the claim
says reconciliation does not fail in that case. -/
theorem c2_counterexample :
    (["ROI_2", "ROI_1"].toFinset = ["ROI_1", "ROI_2"].toFinset) ∧
    check_same_rois ["ROI_1", "ROI_2"] [(1, ["ROI_2", "ROI_1"])] =
      .error ("ValueError: Acquisition 1 does not contain the same ROIs as the " ++
        "reference acquisition") := by decide

/-- Claim C2, amended: the check fails if and only if some acquisition's
ROI-name sequence is not elementwise equal to the reference's (so the same
names in a different order are also rejected); when the two indexes have
equal length the error names the offending acquisition. -/
theorem c2_roi_name_check (rois : List String) (acqs : List (Nat × List String)) :
    (check_same_rois rois acqs = .ok () ↔ ∀ a ∈ acqs, a.2 = rois) ∧
    (∀ acq names, names.length = rois.length → names ≠ rois →
      check_acquisition_rois rois acq names =
        .error ("ValueError: Acquisition " ++ toString acq ++
          " does not contain the same ROIs as the reference acquisition")) := by
  constructor
  · induction acqs with
    | nil => simp [check_same_rois]
    | cons a rest ih =>
      unfold check_same_rois
      cases hc : check_acquisition_rois rois a.1 a.2 with
      | error e =>
        have hne : a.2 ≠ rois := by
          intro he
          rw [(check_acquisition_rois_ok_iff rois a.1 a.2).mpr he] at hc
          cases hc
        simp only [List.mem_cons]
        constructor
        · intro hcontra; cases hcontra
        · intro hall
          exact absurd (hall a (Or.inl rfl)) hne
      | ok u =>
        have heq : a.2 = rois := (check_acquisition_rois_ok_iff rois a.1 a.2).mp (by rw [hc])
        simp only [ih, List.mem_cons]
        constructor
        · intro hall b hb
          cases hb with
          | inl h => rw [h]; exact heq
          | inr h => exact hall b h
        · intro hall b hb
          exact hall b (Or.inr hb)
  · intro acq names hl hne
    unfold check_acquisition_rois indexEqualsAll
    rw [if_pos hl]
    have hb : ¬((names.zip rois).all (fun p => p.1 = p.2) = true) := by
      intro hb
      exact hne ((zip_all_eq_iff hl).mp hb)
    simp only [eq_false_of_ne_true hb, if_false]
    simp

/-- Witness for C2 (amended): a matching acquisition passes the loop and a
reordered one is rejected with the message naming it. -/
theorem c2_roi_name_check_witness :
    check_same_rois ["ROI_1", "ROI_2"] [(0, ["ROI_1", "ROI_2"])] = .ok () ∧
    check_acquisition_rois ["ROI_1", "ROI_2"] 3 ["ROI_2", "ROI_1"] =
      .error ("ValueError: Acquisition 3 does not contain the same ROIs as the " ++
        "reference acquisition") :=
  ⟨(c2_roi_name_check ["ROI_1", "ROI_2"] [(0, ["ROI_1", "ROI_2"])]).1.mpr (by decide),
   (c2_roi_name_check ["ROI_1", "ROI_2"] []).2 3 ["ROI_2", "ROI_1"] (by decide) (by decide)⟩

/-- The consistency loop errors exactly when two windows disagree on the
(y, x) image size. -/
lemma check_FOV_image_sizes_error_iff (w : Window) (ws : List Window) :
    check_FOV_image_sizes (w :: ws) =
        .error "ERROR: inconsistent image sizes in list_indices" ↔
      ∃ v1 ∈ w :: ws, ∃ v2 ∈ w :: ws, windowImgSize v1 ≠ windowImgSize v2 := by
  show (if (ws.all (fun v => windowImgSize v = windowImgSize w)) = true then
      Except.ok (windowImgSize w)
    else Except.error "ERROR: inconsistent image sizes in list_indices") =
      Except.error "ERROR: inconsistent image sizes in list_indices" ↔ _
  by_cases hall : (ws.all (fun v => windowImgSize v = windowImgSize w) = true)
  · rw [if_pos hall]
    constructor
    · intro hcontra; cases hcontra
    · rintro ⟨v1, h1, v2, h2, hne⟩
      have hsz : ∀ v ∈ w :: ws, windowImgSize v = windowImgSize w := by
        intro v hv
        rcases List.mem_cons.mp hv with h | h
        · rw [h]
        · simpa using (List.all_eq_true.mp hall) v h
      exact absurd ((hsz v1 h1).trans (hsz v2 h2).symm) hne
  · rw [if_neg hall]
    constructor
    · intro _
      have : ∃ v ∈ ws, ¬(windowImgSize v = windowImgSize w) := by
        by_contra hno
        push_neg at hno
        exact hall (List.all_eq_true.mpr (fun v hv => by simpa using hno v hv))
      obtain ⟨v, hv, hne⟩ := this
      exact ⟨v, List.mem_cons_of_mem w hv, w, List.mem_cons_self w ws, hne⟩
    · intro _; rfl

/-- Counterexample to C3: two ROI records of the same table whose converted
level-0 windows have different z-extents (5 versus 3 pixels) but identical
y/x extents pass the "inconsistent image sizes" check, although the claim
says any per-axis extent mismatch fails. -/
theorem c3_counterexample :
    convert_ROI_table_to_indices
        [("FOV_1", ⟨0, 0, 0, 5, 10, 20, 0, 0, 0⟩), ("FOV_2", ⟨0, 0, 0, 3, 10, 20, 0, 0, 0⟩)]
        0 2 1 1 1 = [⟨0, 5, 0, 10, 0, 20⟩, ⟨0, 3, 0, 10, 0, 20⟩] ∧
    (Window.mk 0 5 0 10 0 20).e_z - (Window.mk 0 5 0 10 0 20).s_z ≠
      (Window.mk 0 3 0 10 0 20).e_z - (Window.mk 0 3 0 10 0 20).s_z ∧
    check_FOV_image_sizes [⟨0, 5, 0, 10, 0, 20⟩, ⟨0, 3, 0, 10, 0, 20⟩] = .ok (10, 20) := by
  refine ⟨?_, by decide, by decide⟩
  simp [convert_ROI_table_to_indices, round_ofNat]

/-- Claim C3, amended: for a nonempty ROI table converted to level-0
pixel-index windows, the computation fails with the "inconsistent image
sizes" error exactly when two records' windows differ in y-extent or
x-extent; the z-extent is not validated. -/
theorem c3_fov_size_check (r0 : String × ROIRecord) (rs : ROITable)
    (coarsening_xy : ℕ) (pz py px : ℚ) :
    check_FOV_image_sizes
        (convert_ROI_table_to_indices (r0 :: rs) 0 coarsening_xy pz py px) =
        .error "ERROR: inconsistent image sizes in list_indices" ↔
      ∃ v1 ∈ convert_ROI_table_to_indices (r0 :: rs) 0 coarsening_xy pz py px,
        ∃ v2 ∈ convert_ROI_table_to_indices (r0 :: rs) 0 coarsening_xy pz py px,
          windowImgSize v1 ≠ windowImgSize v2 := by
  unfold convert_ROI_table_to_indices
  rw [List.map_cons]
  exact check_FOV_image_sizes_error_iff _ _

/-- The Python string order is total. -/
lemma pyStrLeB_total : ∀ a b : PyStr, pyStrLeB a b = true ∨ pyStrLeB b a = true := by
  intro a
  induction a with
  | nil => intro b; left; rfl
  | cons x xs ih =>
    intro b
    cases b with
    | nil => right; rfl
    | cons y ys =>
      rcases lt_trichotomy x y with h | h | h
      · left; simp [pyStrLeB, h]
      · subst h
        rcases ih ys with h2 | h2
        · left; simp [pyStrLeB, lt_irrefl, h2]
        · right; simp [pyStrLeB, lt_irrefl, h2]
      · right; simp [pyStrLeB, h]

/-- The Python string order is transitive. -/
lemma pyStrLeB_trans : ∀ a b c : PyStr,
    pyStrLeB a b = true → pyStrLeB b c = true → pyStrLeB a c = true := by
  intro a
  induction a with
  | nil => intro b c _ _; rfl
  | cons x xs ih =>
    intro b c hab hbc
    cases b with
    | nil => simp [pyStrLeB] at hab
    | cons y ys =>
      cases c with
      | nil => simp [pyStrLeB] at hbc
      | cons z zs =>
        rcases lt_trichotomy x y with h1 | h1 | h1
        · rcases lt_trichotomy y z with h2 | h2 | h2
          · simp [pyStrLeB, h1.trans h2]
          · subst h2; simp [pyStrLeB, h1]
          · simp [pyStrLeB, h2, asymm h2] at hbc
        · subst h1
          rcases lt_trichotomy x z with h2 | h2 | h2
          · simp [pyStrLeB, h2]
          · subst h2
            simp only [pyStrLeB, lt_irrefl, if_false] at hab hbc ⊢
            exact ih ys zs hab hbc
          · simp [pyStrLeB, h2, asymm h2] at hbc
        · simp [pyStrLeB, h1, asymm h1] at hab

/-- The Python string order is antisymmetric. -/
lemma pyStrLeB_antisymm : ∀ a b : PyStr,
    pyStrLeB a b = true → pyStrLeB b a = true → a = b := by
  intro a
  induction a with
  | nil =>
    intro b _ hba
    cases b with
    | nil => rfl
    | cons y ys => simp [pyStrLeB] at hba
  | cons x xs ih =>
    intro b hab hba
    cases b with
    | nil => simp [pyStrLeB] at hab
    | cons y ys =>
      rcases lt_trichotomy x y with h | h | h
      · simp [pyStrLeB, h, asymm h] at hba
      · subst h
        simp only [pyStrLeB, lt_irrefl, if_false] at hab hba
        rw [ih ys hab hba]
      · simp [pyStrLeB, h, asymm h] at hab

instance : IsTotal (PyStr × PyStr) pairLeP := by
  constructor
  intro p q
  unfold pairLeP pairLeB
  by_cases h : p.1 = q.1
  · rw [if_pos h, if_pos h.symm]
    exact pyStrLeB_total p.2 q.2
  · rw [if_neg h, if_neg (fun he => h he.symm)]
    exact pyStrLeB_total p.1 q.1

instance : IsTrans (PyStr × PyStr) pairLeP := by
  constructor
  intro p q r
  unfold pairLeP pairLeB
  by_cases h1 : p.1 = q.1
  · by_cases h2 : q.1 = r.1
    · rw [if_pos h1, if_pos h2, if_pos (h1.trans h2)]
      exact pyStrLeB_trans p.2 q.2 r.2
    · rw [if_pos h1, if_neg h2, if_neg (fun he => h2 (h1.symm.trans he))]
      intro _ hqr
      rw [h1]; exact hqr
  · by_cases h2 : q.1 = r.1
    · rw [if_neg h1, if_pos h2, if_neg (fun he => h1 (he.trans h2.symm))]
      intro hpq _
      rw [← h2]; exact hpq
    · by_cases h3 : p.1 = r.1
      · rw [if_neg h1, if_neg h2, if_pos h3]
        intro hpq hqr
        exact absurd (pyStrLeB_antisymm p.1 q.1 hpq (h3 ▸ hqr)) h1
      · rw [if_neg h1, if_neg h2, if_neg h3]
        exact pyStrLeB_trans p.1 q.1 r.1

/-- Claim C7: sort_wells decodes every well id into a (row, col) pair and
returns those pairs sorted ascending lexicographically by (row, col); on the
spec's 7-well example the first element of the result is ("Aa", "013"). -/
theorem c7_sort_wells (ws : List PyStr) (raw out : List (PyStr × PyStr))
    (hraw : ws.mapM _extract_row_col_from_well_id = .ok raw)
    (hout : generate_row_col_split ws = .ok out) :
    out.Perm raw ∧ List.Sorted pairLeP out ∧
    generate_row_col_split [pstr "B03.d1", pstr "B05.b1", pstr "B07.c4", pstr "B07.c3",
        pstr "B07.a4", pstr "A01.a3", pstr "H08.d2"] =
      .ok [(pstr "Aa", pstr "013"), (pstr "Ba", pstr "074"), (pstr "Bb", pstr "051"),
           (pstr "Bc", pstr "073"), (pstr "Bc", pstr "074"), (pstr "Bd", pstr "031"),
           (pstr "Hd", pstr "082")] := by
  have hform : out = raw.insertionSort pairLeP := by
    unfold generate_row_col_split at hout
    rw [hraw] at hout
    injection hout with h
    exact h.symm
  subst hform
  exact ⟨List.perm_insertionSort pairLeP raw, List.sorted_insertionSort pairLeP raw, by decide⟩

/-- Witness for C7: the spec's 7-well list, its decoded pairs, and the
sorted output. -/
theorem c7_sort_wells_witness :
    ([(pstr "Aa", pstr "013"), (pstr "Ba", pstr "074"), (pstr "Bb", pstr "051"),
      (pstr "Bc", pstr "073"), (pstr "Bc", pstr "074"), (pstr "Bd", pstr "031"),
      (pstr "Hd", pstr "082")] : List (PyStr × PyStr)).Perm
      [(pstr "Bd", pstr "031"), (pstr "Bb", pstr "051"), (pstr "Bc", pstr "074"),
       (pstr "Bc", pstr "073"), (pstr "Ba", pstr "074"), (pstr "Aa", pstr "013"),
       (pstr "Hd", pstr "082")] ∧
    List.Sorted pairLeP
      [(pstr "Aa", pstr "013"), (pstr "Ba", pstr "074"), (pstr "Bb", pstr "051"),
       (pstr "Bc", pstr "073"), (pstr "Bc", pstr "074"), (pstr "Bd", pstr "031"),
       (pstr "Hd", pstr "082")] ∧
    generate_row_col_split [pstr "B03.d1", pstr "B05.b1", pstr "B07.c4", pstr "B07.c3",
        pstr "B07.a4", pstr "A01.a3", pstr "H08.d2"] =
      .ok [(pstr "Aa", pstr "013"), (pstr "Ba", pstr "074"), (pstr "Bb", pstr "051"),
           (pstr "Bc", pstr "073"), (pstr "Bc", pstr "074"), (pstr "Bd", pstr "031"),
           (pstr "Hd", pstr "082")] :=
  c7_sort_wells
    [pstr "B03.d1", pstr "B05.b1", pstr "B07.c4", pstr "B07.c3",
     pstr "B07.a4", pstr "A01.a3", pstr "H08.d2"]
    [(pstr "Bd", pstr "031"), (pstr "Bb", pstr "051"), (pstr "Bc", pstr "074"),
     (pstr "Bc", pstr "073"), (pstr "Ba", pstr "074"), (pstr "Aa", pstr "013"),
     (pstr "Hd", pstr "082")]
    [(pstr "Aa", pstr "013"), (pstr "Ba", pstr "074"), (pstr "Bb", pstr "051"),
     (pstr "Bc", pstr "073"), (pstr "Bc", pstr "074"), (pstr "Bd", pstr "031"),
     (pstr "Hd", pstr "082")]
    (by decide) (by decide)
